import Mathlib

/-!
# Gravity Miner — verification of the simulation/world engine

Shallow embedding of `src/game/GameEngine.ts`, `src/game/Ball.ts` and
`src/game/Block.ts` (the "core" of the spec).  JavaScript numbers are
modelled exactly: quantities that only ever hold decimal/integer values and
take part in exact comparisons (money, hp, timers, upgrade levels, grid
coordinates) are embedded as `ℚ`/`ℤ`/`ℕ`; geometric quantities that flow
through `Math.sqrt`/trigonometry (positions, velocities, radii) are embedded
as `ℝ`.  Side effects that leave the core (sound, canvas drawing,
`localStorage`, `console.log`) are dropped; `Math.random()` is modelled as an
explicit stream `ℕ → ℝ` threaded with a counter, one draw per source call
site.  Notification text is dropped; `showNotification` is modelled by its
only core-visible effect, setting `notificationTimer := 2000`.
-/

namespace GravityMiner

/-- Ball.ts: a circular drilling body.  `color` (a cosmetic string) is
dropped.  `damage` only participates in exact economy arithmetic, hence `ℚ`. -/
structure Ball where
  x : ℝ
  y : ℝ
  radius : ℝ
  dx : ℝ
  dy : ℝ
  gravity : ℝ
  elasticity : ℝ
  damage : ℚ

instance : Inhabited Ball := ⟨⟨0, 0, 0, 0, 0, 0, 0, 0⟩⟩

/-- Block.ts: the four cell types (`Block.ts` declares three in its type
annotation but the engine assigns `'cashBooster'` as well; we model the
value set actually used by `GameEngine.ts`). -/
inductive BlockType where
  | normal
  | bitBooster
  | explosive
  | cashBooster
deriving DecidableEq, Repr

/-- Block.ts: a destructible hexagonal cell.  `color` (cosmetic) dropped;
`hp`, `maxHp`, `value` are exact (`ℚ`), grid coordinates exact (`ℤ`). -/
structure Block where
  x : ℝ
  y : ℝ
  radius : ℝ
  hp : ℚ
  maxHp : ℚ
  value : ℚ
  row : ℤ
  col : ℤ
  type : BlockType
  typeRolled : Bool

/-- Block.takeDamage: subtract and report destruction (`hp <= 0`). -/
def takeDamage (b : Block) (amount : ℚ) : Block × Bool :=
  ({ b with hp := b.hp - amount }, decide (b.hp - amount ≤ 0))

/-- GameEngine.ts: the six upgrade levels. -/
structure Upgrades where
  damage : ℕ
  gravity : ℕ
  efficiency : ℕ
  bitBoosters : ℕ
  explosiveBlocks : ℕ
  cashBoosters : ℕ
deriving DecidableEq, Repr

inductive GameState where
  | MENU
  | PLAYING
  | PAUSED
deriving DecidableEq, Repr

/-- GameEngine.ts engine state (fields that the core logic reads or writes;
purely presentational fields — menu layout state, hover flags, patterns,
notification text, settings, `lastActiveTime` — are dropped). -/
structure Engine where
  balls : List Ball
  blocks : List Block
  canvasWidth : ℝ
  canvasHeight : ℝ
  money : ℚ
  gameState : GameState
  isResizing : Bool
  upgrades : Upgrades
  offsetY : ℝ
  maxRowGenerated : ℤ
  rowHeight : ℝ
  holeWidth : ℝ
  holeLeft : ℝ
  holeRight : ℝ
  notificationTimer : ℚ
  autoSaveTimer : ℚ
  bitBoosterTimer : ℚ
  cashBoosterTimer : ℚ
  prestigeCount : ℕ

def AUTO_SAVE_INTERVAL : ℚ := 5 * 60 * 1000

def BIT_BOOSTER_DURATION : ℚ := 5000

def CASH_BOOSTER_DURATION : ℚ := 5000

/-- `showNotification`: only core-visible effect is the 2000 ms timer. -/
def showNotification (st : Engine) : Engine :=
  { st with notificationTimer := 2000 }

/-- The efficiency payout multiplier `1 + (efficiency - 1) * 0.2` as the
engine computes it (JS subtraction, so the level is cast to `ℚ` first). -/
def effMult (st : Engine) : ℚ := 1 + ((st.upgrades.efficiency : ℚ) - 1) * 0.2

/-- The cash multiplier `cashBoosterTimer > 0 ? 2 : 1`. -/
def cashMult (st : Engine) : ℚ := if 0 < st.cashBoosterTimer then 2 else 1

/-! ## Chain destruction (`destroyAdjacentBlocks`, GameEngine.ts 795–850) -/

/-- Neighbor offsets for even rows (flat-topped offset hex layout). -/
def evenRowOffsets : List (ℤ × ℤ) :=
  [(-1, 0), (-1, 1), (0, -1), (0, 1), (1, 0), (1, 1)]

/-- Neighbor offsets for odd rows. -/
def oddRowOffsets : List (ℤ × ℤ) :=
  [(-1, -1), (-1, 0), (0, -1), (0, 1), (1, -1), (1, 0)]

/-- The six neighbor coordinates of a cell, in source order.  JS tests
`row % 2 === 0` on the remainder; `Int.emod row 2 = 0` holds for exactly the
same rows. -/
def neighborTargets (row col : ℤ) : List (ℤ × ℤ) :=
  ((if row % 2 = 0 then evenRowOffsets else oddRowOffsets).map
    fun o => (row + o.1, col + o.2))

/-- `findIndex` + `splice(idx, 1)`: locate the first block at the given grid
coordinate and return it together with the list with that occurrence
removed. -/
def removeAt (l : List Block) (t : ℤ × ℤ) : Option (Block × List Block) :=
  match l with
  | [] => none
  | b :: bs =>
    if b.row = t.1 ∧ b.col = t.2 then some (b, bs)
    else match removeAt bs t with
      | none => none
      | some (c, cs) => some (c, b :: cs)

theorem removeAt_length {t : ℤ × ℤ} :
    ∀ {l : List Block} {b : Block} {l' : List Block},
      removeAt l t = some (b, l') → l'.length + 1 = l.length := by
  intro l
  induction l with
  | nil => intro b l' h; simp [removeAt] at h
  | cons a as ih =>
    intro b l' h
    simp only [removeAt] at h
    by_cases hc : a.row = t.1 ∧ a.col = t.2
    · rw [if_pos hc] at h
      cases h
      simp
    · rw [if_neg hc] at h
      cases hr : removeAt as t with
      | none => rw [hr] at h; cases h
      | some p =>
        obtain ⟨c, cs⟩ := p
        rw [hr] at h
        cases h
        have := ih hr
        simp only [List.length_cons]
        omega

theorem removeAt_sublist {t : ℤ × ℤ} :
    ∀ {l : List Block} {b : Block} {l' : List Block},
      removeAt l t = some (b, l') → l'.Sublist l := by
  intro l
  induction l with
  | nil => intro b l' h; simp [removeAt] at h
  | cons a as ih =>
    intro b l' h
    simp only [removeAt] at h
    by_cases hc : a.row = t.1 ∧ a.col = t.2
    · rw [if_pos hc] at h
      cases h
      exact List.sublist_cons_self a as
    · rw [if_neg hc] at h
      cases hr : removeAt as t with
      | none => rw [hr] at h; cases h
      | some p =>
        obtain ⟨c, cs⟩ := p
        rw [hr] at h
        cases h
        exact List.Sublist.cons₂ a (ih hr)

/-- The per-target loop body of `destroyAdjacentBlocks`, with the recursive
call into a fresh invocation inlined (in the source the recursion goes
through `destroyAdjacentBlocks(adjacentBlock, processedBlocks)`, which
re-samples `efficiencyMult`/`cashMultiplier` and re-checks the visited set
before iterating that block's own six neighbors).  `em`/`cm` are the
multipliers sampled at entry of the current invocation.  The source sets at
most one booster timer in an `if`/`else if` chain over the destroyed block's
type; this is written below as two conditional field values, which agree
branch by branch.  The result carries the proof that destruction only ever
shrinks the block list, which also drives termination. -/
def destroyChain (st : Engine) (em cm : ℚ) (targets : List (ℤ × ℤ))
    (pr : List (ℤ × ℤ)) :
    { p : Engine × List (ℤ × ℤ) // p.1.blocks.length ≤ st.blocks.length } :=
  match targets with
  | [] => ⟨(st, pr), le_rfl⟩
  | t :: rest =>
    match h : removeAt st.blocks t with
    | none =>
      let res := destroyChain st em cm rest pr
      ⟨res.1, res.2⟩
    | some (b, bs) =>
      -- money += ceil(value * efficiencyMult * cashMultiplier); splice;
      -- then booster-timer refresh depending on the destroyed block's type
      let st2 : Engine :=
        { st with blocks := bs,
                  money := st.money + (⌈b.value * em * cm⌉ : ℤ),
                  bitBoosterTimer :=
                    if b.type = BlockType.bitBooster then BIT_BOOSTER_DURATION
                    else st.bitBoosterTimer,
                  cashBoosterTimer :=
                    if b.type = BlockType.cashBooster then CASH_BOOSTER_DURATION
                    else st.cashBoosterTimer }
      if b.type = BlockType.explosive then
        -- chain explosion: recursive `destroyAdjacentBlocks` call, inlined
        match (if (b.row, b.col) ∈ pr then ⟨(st2, pr), le_rfl⟩
               else
                 destroyChain st2 (effMult st2) (cashMult st2)
                   (neighborTargets b.row b.col) ((b.row, b.col) :: pr) :
               { p : Engine × List (ℤ × ℤ) //
                 p.1.blocks.length ≤ st2.blocks.length }) with
        | ⟨(stI, prI), hI⟩ =>
          let res := destroyChain stI em cm rest prI
          ⟨res.1, by
            have h1 := res.2
            have h2 := removeAt_length h
            have h3 : st2.blocks.length = bs.length := rfl
            have h4 : ((stI, prI) : Engine × List (ℤ × ℤ)).1.blocks.length
                = stI.blocks.length := rfl
            omega⟩
      else
        let res := destroyChain st2 em cm rest pr
        ⟨res.1, by
          have h1 := res.2
          have h2 := removeAt_length h
          have h3 : st2.blocks.length = bs.length := rfl
          omega⟩
termination_by (st.blocks.length, targets.length)
decreasing_by
  · exact Prod.Lex.right _ (by simp)
  · refine Prod.Lex.left _ _ ?_
    have := removeAt_length h
    have h3 : st2.blocks.length = bs.length := rfl
    omega
  · refine Prod.Lex.left _ _ ?_
    have h2 := removeAt_length h
    have h3 : st2.blocks.length = bs.length := rfl
    have h4 : ((stI, prI) : Engine × List (ℤ × ℤ)).1.blocks.length
        = stI.blocks.length := rfl
    omega
  · refine Prod.Lex.left _ _ ?_
    have := removeAt_length h
    have h3 : st2.blocks.length = bs.length := rfl
    omega

/-- `destroyAdjacentBlocks(centerBlock, processedBlocks)` (the entry point;
`update` calls it with a fresh empty visited set).  Samples the multipliers,
guards on the visited set, records the center and processes its six
neighbors. -/
def destroyAdjacentBlocks (st : Engine) (centerRow centerCol : ℤ)
    (pr : List (ℤ × ℤ)) : Engine × List (ℤ × ℤ) :=
  let em := effMult st
  let cm := cashMult st
  if (centerRow, centerCol) ∈ pr then (st, pr)
  else
    (destroyChain st em cm (neighborTargets centerRow centerCol)
      ((centerRow, centerCol) :: pr)).1


/-- Membership of the removed block. -/
theorem removeAt_mem {t : ℤ × ℤ} :
    ∀ {l : List Block} {b : Block} {l' : List Block},
      removeAt l t = some (b, l') → b ∈ l := by
  intro l
  induction l with
  | nil => intro b l' h; simp [removeAt] at h
  | cons a as ih =>
    intro b l' h
    simp only [removeAt] at h
    by_cases hc : a.row = t.1 ∧ a.col = t.2
    · rw [if_pos hc] at h
      cases h
      exact List.mem_cons_self a as
    · rw [if_neg hc] at h
      cases hr : removeAt as t with
      | none => rw [hr] at h; cases h
      | some p =>
        obtain ⟨c, cs⟩ := p
        rw [hr] at h
        cases h
        exact List.mem_cons_of_mem a (ih hr)

/-- Removing a block splits any credit sum. -/
theorem removeAt_sum {t : ℤ × ℤ} (f : Block → ℚ) :
    ∀ {l : List Block} {b : Block} {l' : List Block},
      removeAt l t = some (b, l') →
      (l.map f).sum = f b + (l'.map f).sum := by
  intro l
  induction l with
  | nil => intro b l' h; simp [removeAt] at h
  | cons a as ih =>
    intro b l' h
    simp only [removeAt] at h
    by_cases hc : a.row = t.1 ∧ a.col = t.2
    · rw [if_pos hc] at h
      cases h
      simp
    · rw [if_neg hc] at h
      cases hr : removeAt as t with
      | none => rw [hr] at h; cases h
      | some p =>
        obtain ⟨c, cs⟩ := p
        rw [hr] at h
        cases h
        have := ih hr
        simp only [List.map_cons, List.sum_cons, this]
        ring

/-- Value-level unfolding of `destroyChain` on the empty target list. -/
theorem destroyChain_nil_eq (st : Engine) (em cm : ℚ) (pr : List (ℤ × ℤ)) :
    (destroyChain st em cm [] pr).1 = (st, pr) := by
  rw [destroyChain]

/-- Value-level unfolding when the target coordinate has no live block. -/
theorem destroyChain_none_eq (st : Engine) (em cm : ℚ) (t : ℤ × ℤ)
    (rest pr : List (ℤ × ℤ)) (h : removeAt st.blocks t = none) :
    (destroyChain st em cm (t :: rest) pr).1
      = (destroyChain st em cm rest pr).1 := by
  rw [destroyChain]
  split
  · rfl
  · next b bs heq => rw [h] at heq; cases heq

/-- The state after crediting and removing block `b` and applying its
booster effect. -/
def afterDestroy (st : Engine) (em cm : ℚ) (b : Block) (bs : List Block) :
    Engine :=
  { st with blocks := bs,
            money := st.money + (⌈b.value * em * cm⌉ : ℤ),
            bitBoosterTimer :=
              if b.type = BlockType.bitBooster then BIT_BOOSTER_DURATION
              else st.bitBoosterTimer,
            cashBoosterTimer :=
              if b.type = BlockType.cashBooster then CASH_BOOSTER_DURATION
              else st.cashBoosterTimer }

/-- Value-level unfolding when the target coordinate holds a live block. -/
theorem destroyChain_some_eq (st : Engine) (em cm : ℚ) (t : ℤ × ℤ)
    (rest pr : List (ℤ × ℤ)) (b : Block) (bs : List Block)
    (h : removeAt st.blocks t = some (b, bs)) :
    (destroyChain st em cm (t :: rest) pr).1
      = (let st2 := afterDestroy st em cm b bs
         if b.type = BlockType.explosive then
           let inner :=
             if (b.row, b.col) ∈ pr then (st2, pr)
             else (destroyChain st2 (effMult st2) (cashMult st2)
                 (neighborTargets b.row b.col) ((b.row, b.col) :: pr)).1
           (destroyChain inner.1 em cm rest inner.2).1
         else (destroyChain st2 em cm rest pr).1) := by
  rw [destroyChain]
  split
  · next heq => rw [h] at heq; cases heq
  · next b2 bs2 heq =>
    rw [h] at heq
    cases heq
    by_cases hexp : b.type = BlockType.explosive
    · rw [if_pos hexp, if_pos hexp]
      by_cases hmem : (b.row, b.col) ∈ pr
      · rw [if_pos hmem, if_pos hmem]
        rfl
      · rw [if_neg hmem, if_neg hmem]
        rfl
    · rw [if_neg hexp, if_neg hexp]
      rfl


/-- Combine "equal or refreshed" steps. -/
theorem or_eq_trans {x y z d : ℚ} (h1 : x = y ∨ x = d)
    (h2 : y = z ∨ y = d) : x = z ∨ x = d := by
  rcases h1 with h | h
  · rw [h]; exact h2
  · exact Or.inr h

/-- Push an `if`-refresh through an "equal or refreshed" disjunction. -/
theorem timer_step {x y dur : ℚ} {c : Prop} [Decidable c]
    (hx : x = (if c then dur else y) ∨ x = dur) : x = y ∨ x = dur := by
  rcases hx with hx | hx
  · by_cases hc : c
    · rw [if_pos hc] at hx; exact Or.inr hx
    · rw [if_neg hc] at hx; exact Or.inl hx
  · exact Or.inr hx

/-- Structural guarantees of the chain walk: the block list only shrinks (a
sublist of the input, so each cell is destroyed at most once), the visited
set only grows and stays duplicate-free (each `(row, col)` is expanded at
most once across the whole chain), `upgrades` and `balls` are untouched, and
each booster timer is either untouched or refreshed to its full duration. -/
theorem destroyChain_spec (st : Engine) (em cm : ℚ) (ts pr : List (ℤ × ℤ)) :
    ((destroyChain st em cm ts pr).1.1.blocks).Sublist st.blocks ∧
    pr ⊆ (destroyChain st em cm ts pr).1.2 ∧
    (pr.Nodup → (destroyChain st em cm ts pr).1.2.Nodup) ∧
    (destroyChain st em cm ts pr).1.1.upgrades = st.upgrades ∧
    (destroyChain st em cm ts pr).1.1.balls = st.balls ∧
    ((destroyChain st em cm ts pr).1.1.bitBoosterTimer = st.bitBoosterTimer ∨
      (destroyChain st em cm ts pr).1.1.bitBoosterTimer = BIT_BOOSTER_DURATION) ∧
    ((destroyChain st em cm ts pr).1.1.cashBoosterTimer = st.cashBoosterTimer ∨
      (destroyChain st em cm ts pr).1.1.cashBoosterTimer
        = CASH_BOOSTER_DURATION) := by
  induction st, em, cm, ts, pr using destroyChain.induct with
  | case1 st em cm pr =>
    rw [show (destroyChain st em cm [] pr).1 = (st, pr) from
      destroyChain_nil_eq st em cm pr]
    simp
  | case2 st em cm pr t rest h ih =>
    rw [destroyChain_none_eq st em cm t rest pr h]
    exact ih
  | case3 st em cm pr t rest b bs h st2 hexp stI prI hI heq ihInner ihRest =>
    have hbs : bs.Sublist st.blocks := removeAt_sublist h
    have hval :
        (if (b.row, b.col) ∈ pr then (st2, pr)
         else (destroyChain st2 (effMult st2) (cashMult st2)
             (neighborTargets b.row b.col) ((b.row, b.col) :: pr)).1)
          = (stI, prI) := by
      by_cases hmem : (b.row, b.col) ∈ pr
      · rw [if_pos hmem]
        rw [dif_pos hmem] at heq
        exact congrArg Subtype.val heq
      · rw [if_neg hmem]
        rw [dif_neg hmem] at heq
        exact congrArg Subtype.val heq
    -- properties of the inner invocation's result
    have hSI : stI.blocks.Sublist bs ∧ pr ⊆ prI ∧ (pr.Nodup → prI.Nodup) ∧
        stI.upgrades = st.upgrades ∧ stI.balls = st.balls ∧
        (stI.bitBoosterTimer = st2.bitBoosterTimer ∨
          stI.bitBoosterTimer = BIT_BOOSTER_DURATION) ∧
        (stI.cashBoosterTimer = st2.cashBoosterTimer ∨
          stI.cashBoosterTimer = CASH_BOOSTER_DURATION) := by
      by_cases hmem : (b.row, b.col) ∈ pr
      · rw [if_pos hmem] at hval
        injection hval with h1 h2
        subst h2
        subst h1
        exact ⟨List.Sublist.refl _, fun x hx => hx, fun hn => hn,
          rfl, rfl, Or.inl rfl, Or.inl rfl⟩
      · rw [if_neg hmem] at hval
        obtain ⟨q1, q2, q3, q4, q5, q6, q7⟩ := ihInner
        rw [hval] at q1 q2 q3 q4 q5 q6 q7
        refine ⟨q1, ?_, ?_, q4, q5, q6, q7⟩
        · exact fun x hx => q2 (List.mem_cons_of_mem _ hx)
        · intro hn
          exact q3 (List.nodup_cons.mpr ⟨hmem, hn⟩)
    obtain ⟨s1, s2, s3, s4, s5, s6, s7⟩ := hSI
    obtain ⟨r1, r2, r3, r4, r5, r6, r7⟩ := ihRest
    have hbit2 : st2.bitBoosterTimer
        = (if b.type = BlockType.bitBooster then BIT_BOOSTER_DURATION
           else st.bitBoosterTimer) := rfl
    have hcash2 : st2.cashBoosterTimer
        = (if b.type = BlockType.cashBooster then CASH_BOOSTER_DURATION
           else st.cashBoosterTimer) := rfl
    rw [destroyChain_some_eq st em cm t rest pr b bs h]
    simp only [if_pos hexp]
    have hval' :
        (if (b.row, b.col) ∈ pr then ((afterDestroy st em cm b bs), pr)
         else (destroyChain (afterDestroy st em cm b bs)
             (effMult (afterDestroy st em cm b bs))
             (cashMult (afterDestroy st em cm b bs))
             (neighborTargets b.row b.col) ((b.row, b.col) :: pr)).1)
          = (stI, prI) := hval
    rw [hval']
    refine ⟨r1.trans (s1.trans hbs), fun x hx => r2 (s2 hx),
      fun hn => r3 (s3 hn), r4.trans s4, r5.trans s5, ?_, ?_⟩
    · exact timer_step (hbit2 ▸ or_eq_trans r6 s6)
    · exact timer_step (hcash2 ▸ or_eq_trans r7 s7)
  | case4 st em cm pr t rest b bs h st2 hexp ih =>
    have hbs : bs.Sublist st.blocks := removeAt_sublist h
    obtain ⟨r1, r2, r3, r4, r5, r6, r7⟩ := ih
    have hbit2 : st2.bitBoosterTimer
        = (if b.type = BlockType.bitBooster then BIT_BOOSTER_DURATION
           else st.bitBoosterTimer) := rfl
    have hcash2 : st2.cashBoosterTimer
        = (if b.type = BlockType.cashBooster then CASH_BOOSTER_DURATION
           else st.cashBoosterTimer) := rfl
    rw [destroyChain_some_eq st em cm t rest pr b bs h]
    simp only [if_neg hexp]
    refine ⟨?_, ?_, ?_, ?_, ?_, ?_, ?_⟩
    · exact r1.trans hbs
    · exact r2
    · exact r3
    · exact r4
    · exact r5
    · exact timer_step (hbit2 ▸ r6)
    · exact timer_step (hcash2 ▸ r7)


/-- The amount credited for one block destroyed in a chain with sampled
multipliers `em`, `cm`: `ceil(value * efficiencyMult * cashMultiplier)`. -/
def chainCredit (em cm : ℚ) (b : Block) : ℚ := ((⌈b.value * em * cm⌉ : ℤ) : ℚ)

theorem effMult_congr {s1 s2 : Engine} (h : s1.upgrades = s2.upgrades) :
    effMult s1 = effMult s2 := by
  unfold effMult
  rw [h]

theorem cashMult_congr {s1 s2 : Engine}
    (h : s1.cashBoosterTimer = s2.cashBoosterTimer) :
    cashMult s1 = cashMult s2 := by
  unfold cashMult
  rw [h]

/-- Money accounting for a chain that destroys no cash-booster cell: every
removed block is credited exactly `ceil(value * em * cm)` with the
multipliers sampled at entry (which then stay valid through every nested
invocation because the cash timer is never refreshed), and the cash timer is
unchanged. -/
theorem destroyChain_money (st : Engine) (em cm : ℚ) (ts pr : List (ℤ × ℤ)) :
    em = effMult st → cm = cashMult st →
    (∀ b ∈ st.blocks, b.type ≠ BlockType.cashBooster) →
    (destroyChain st em cm ts pr).1.1.money
        = st.money + (st.blocks.map (chainCredit em cm)).sum
          - ((destroyChain st em cm ts pr).1.1.blocks.map
              (chainCredit em cm)).sum ∧
    (destroyChain st em cm ts pr).1.1.cashBoosterTimer
        = st.cashBoosterTimer := by
  induction st, em, cm, ts, pr using destroyChain.induct with
  | case1 st em cm pr =>
    intro _ _ _
    rw [show (destroyChain st em cm [] pr).1 = (st, pr) from
      destroyChain_nil_eq st em cm pr]
    exact ⟨by ring, rfl⟩
  | case2 st em cm pr t rest h ih =>
    intro hem hcm hnc
    rw [destroyChain_none_eq st em cm t rest pr h]
    exact ih hem hcm hnc
  | case3 st em cm pr t rest b bs h st2 hexp stI prI hI heq ihInner ihRest =>
    intro hem hcm hnc
    have hbmem : b ∈ st.blocks := removeAt_mem h
    have hbs : bs.Sublist st.blocks := removeAt_sublist h
    have hncbs : ∀ x ∈ bs, x.type ≠ BlockType.cashBooster :=
      fun x hx => hnc x (hbs.mem hx)
    have hcashT2 : st2.cashBoosterTimer = st.cashBoosterTimer := by
      have hrfl : st2.cashBoosterTimer
          = (if b.type = BlockType.cashBooster then CASH_BOOSTER_DURATION
             else st.cashBoosterTimer) := rfl
      rw [hrfl, if_neg (by simp [hexp])]
    have hmon2 : st2.money = st.money + chainCredit em cm b := rfl
    have hblocks2 : st2.blocks = bs := rfl
    have hupg2 : st2.upgrades = st.upgrades := rfl
    have hem2 : em = effMult st2 := hem.trans (effMult_congr hupg2).symm
    have hcm2 : cm = cashMult st2 := hcm.trans (cashMult_congr hcashT2).symm
    have hval :
        (if (b.row, b.col) ∈ pr then (st2, pr)
         else (destroyChain st2 (effMult st2) (cashMult st2)
             (neighborTargets b.row b.col) ((b.row, b.col) :: pr)).1)
          = (stI, prI) := by
      by_cases hmem : (b.row, b.col) ∈ pr
      · rw [if_pos hmem]
        rw [dif_pos hmem] at heq
        exact congrArg Subtype.val heq
      · rw [if_neg hmem]
        rw [dif_neg hmem] at heq
        exact congrArg Subtype.val heq
    -- money and cash-timer state of the inner invocation's result
    have hSI : stI.money = st2.money + (bs.map (chainCredit em cm)).sum
          - (stI.blocks.map (chainCredit em cm)).sum ∧
        stI.cashBoosterTimer = st.cashBoosterTimer ∧
        stI.blocks.Sublist bs ∧ stI.upgrades = st.upgrades := by
      by_cases hmem : (b.row, b.col) ∈ pr
      · rw [if_pos hmem] at hval
        injection hval with h1 h2
        subst h2
        subst h1
        exact ⟨by rw [hblocks2]; ring, hcashT2, List.Sublist.refl _, rfl⟩
      · rw [if_neg hmem] at hval
        have hspec := destroyChain_spec st2 (effMult st2) (cashMult st2)
          (neighborTargets b.row b.col) ((b.row, b.col) :: pr)
        obtain ⟨q1, -, -, q4, -, -, -⟩ := hspec
        have hmoney := ihInner rfl rfl (hblocks2 ▸ hncbs)
        rw [hval] at q1 q4
        obtain ⟨m1, m2⟩ := hmoney
        rw [hval] at m1 m2
        have hconv : chainCredit (effMult st2) (cashMult st2)
            = chainCredit em cm := by rw [← hem2, ← hcm2]
        rw [hconv] at m1
        rw [hblocks2] at m1 q1
        refine ⟨m1, m2.trans hcashT2, q1, q4.trans hupg2⟩
    obtain ⟨s1, s2, s3, s4⟩ := hSI
    have hemI : em = effMult stI := hem.trans (effMult_congr s4).symm
    have hcmI : cm = cashMult stI := by
      rw [hcm]
      exact (cashMult_congr s2).symm
    have hncI : ∀ x ∈ stI.blocks, x.type ≠ BlockType.cashBooster :=
      fun x hx => hncbs x (s3.mem hx)
    obtain ⟨r1, r2⟩ := ihRest hemI hcmI hncI
    rw [destroyChain_some_eq st em cm t rest pr b bs h]
    have hAD : afterDestroy st em cm b bs = st2 := rfl
    rw [hAD]
    simp only [if_pos hexp]
    rw [hval]
    have hsum : (st.blocks.map (chainCredit em cm)).sum
        = chainCredit em cm b + (bs.map (chainCredit em cm)).sum :=
      removeAt_sum (chainCredit em cm) h
    constructor
    · linarith [r1, s1, hmon2, hsum]
    · exact r2.trans s2
  | case4 st em cm pr t rest b bs h st2 hexp ih =>
    intro hem hcm hnc
    have hbmem : b ∈ st.blocks := removeAt_mem h
    have hbs : bs.Sublist st.blocks := removeAt_sublist h
    have hncbs : ∀ x ∈ bs, x.type ≠ BlockType.cashBooster :=
      fun x hx => hnc x (hbs.mem hx)
    have hcashT2 : st2.cashBoosterTimer = st.cashBoosterTimer := by
      have hrfl : st2.cashBoosterTimer
          = (if b.type = BlockType.cashBooster then CASH_BOOSTER_DURATION
             else st.cashBoosterTimer) := rfl
      rw [hrfl, if_neg (hnc b hbmem)]
    have hmon2 : st2.money = st.money + chainCredit em cm b := rfl
    have hblocks2 : st2.blocks = bs := rfl
    have hupg2 : st2.upgrades = st.upgrades := rfl
    have hem2 : em = effMult st2 := hem.trans (effMult_congr hupg2).symm
    have hcm2 : cm = cashMult st2 := hcm.trans (cashMult_congr hcashT2).symm
    obtain ⟨r1, r2⟩ := ih hem2 hcm2 (hblocks2 ▸ hncbs)
    rw [destroyChain_some_eq st em cm t rest pr b bs h]
    have hAD : afterDestroy st em cm b bs = st2 := rfl
    rw [hAD]
    simp only [if_neg hexp]
    have hsum : (st.blocks.map (chainCredit em cm)).sum
        = chainCredit em cm b + (bs.map (chainCredit em cm)).sum :=
      removeAt_sum (chainCredit em cm) h
    have hS2 : (List.map (chainCredit em cm) st2.blocks).sum
        = (List.map (chainCredit em cm) bs).sum := by rw [hblocks2]
    constructor
    · linarith [r1, hmon2, hsum, hS2]
    · exact r2.trans hcashT2


/-! ## Geometry: vertices and circle-vs-hexagon collision
(`Block.getVertices`, `GameEngine.checkCollision` 2598–2653) -/

open Real in
/-- Block.getVertices: six vertices at angles `(π/180)·(60·i + 30)`. -/
noncomputable def getVertices (b : Block) : List (ℝ × ℝ) :=
  (List.range 6).map fun (i : ℕ) =>
    (b.x + b.radius * Real.cos ((Real.pi / 180) * (60 * (i : ℝ) + 30)),
     b.y + b.radius * Real.sin ((Real.pi / 180) * (60 * (i : ℝ) + 30)))

theorem cos_deg30 : Real.cos (Real.pi / 180 * 30) = Real.sqrt 3 / 2 := by
  rw [show Real.pi / 180 * 30 = Real.pi / 6 by ring]
  exact Real.cos_pi_div_six

theorem sin_deg30 : Real.sin (Real.pi / 180 * 30) = 1 / 2 := by
  rw [show Real.pi / 180 * 30 = Real.pi / 6 by ring]
  exact Real.sin_pi_div_six

theorem cos_deg90 : Real.cos (Real.pi / 180 * 90) = 0 := by
  rw [show Real.pi / 180 * 90 = Real.pi / 2 by ring]
  exact Real.cos_pi_div_two

theorem sin_deg90 : Real.sin (Real.pi / 180 * 90) = 1 := by
  rw [show Real.pi / 180 * 90 = Real.pi / 2 by ring]
  exact Real.sin_pi_div_two

theorem cos_deg150 : Real.cos (Real.pi / 180 * 150) = -(Real.sqrt 3 / 2) := by
  rw [show Real.pi / 180 * 150 = Real.pi - Real.pi / 6 by ring,
    Real.cos_pi_sub, Real.cos_pi_div_six]

theorem sin_deg150 : Real.sin (Real.pi / 180 * 150) = 1 / 2 := by
  rw [show Real.pi / 180 * 150 = Real.pi - Real.pi / 6 by ring,
    Real.sin_pi_sub, Real.sin_pi_div_six]

theorem cos_deg210 : Real.cos (Real.pi / 180 * 210) = -(Real.sqrt 3 / 2) := by
  rw [show Real.pi / 180 * 210 = Real.pi - -(Real.pi / 6) by ring,
    Real.cos_pi_sub, Real.cos_neg, Real.cos_pi_div_six]

theorem sin_deg210 : Real.sin (Real.pi / 180 * 210) = -(1 / 2) := by
  rw [show Real.pi / 180 * 210 = Real.pi - -(Real.pi / 6) by ring,
    Real.sin_pi_sub, Real.sin_neg, Real.sin_pi_div_six]

theorem cos_deg270 : Real.cos (Real.pi / 180 * 270) = 0 := by
  rw [show Real.pi / 180 * 270 = 2 * Real.pi - Real.pi / 2 by ring,
    Real.cos_two_pi_sub, Real.cos_pi_div_two]

theorem sin_deg270 : Real.sin (Real.pi / 180 * 270) = -1 := by
  rw [show Real.pi / 180 * 270 = 2 * Real.pi - Real.pi / 2 by ring,
    Real.sin_two_pi_sub, Real.sin_pi_div_two]

theorem cos_deg330 : Real.cos (Real.pi / 180 * 330) = Real.sqrt 3 / 2 := by
  rw [show Real.pi / 180 * 330 = 2 * Real.pi - Real.pi / 6 by ring,
    Real.cos_two_pi_sub, Real.cos_pi_div_six]

theorem sin_deg330 : Real.sin (Real.pi / 180 * 330) = -(1 / 2) := by
  rw [show Real.pi / 180 * 330 = 2 * Real.pi - Real.pi / 6 by ring,
    Real.sin_two_pi_sub, Real.sin_pi_div_six]

/-- The six vertices in closed algebraic form: flat-topped hexagon with
vertices at 30° + 60°·k. -/
theorem getVertices_eq (b : Block) :
    getVertices b =
      [(b.x + b.radius * (Real.sqrt 3 / 2), b.y + b.radius * (1 / 2)),
       (b.x, b.y + b.radius),
       (b.x - b.radius * (Real.sqrt 3 / 2), b.y + b.radius * (1 / 2)),
       (b.x - b.radius * (Real.sqrt 3 / 2), b.y - b.radius * (1 / 2)),
       (b.x, b.y - b.radius),
       (b.x + b.radius * (Real.sqrt 3 / 2), b.y - b.radius * (1 / 2))] := by
  have hr : List.range 6 = [0, 1, 2, 3, 4, 5] := rfl
  unfold getVertices
  rw [hr]
  simp only [List.map_cons, List.map_nil]
  norm_num [cos_deg30, sin_deg30, cos_deg90, sin_deg90, cos_deg150,
    sin_deg150, cos_deg210, sin_deg210, cos_deg270, sin_deg270,
    cos_deg330, sin_deg330]
  and_intros <;> first
    | trivial
    | ring

/-- The six edges `(v[i], v[(i+1) % 6])` in loop order. -/
noncomputable def hexEdges (b : Block) : List ((ℝ × ℝ) × (ℝ × ℝ)) :=
  match getVertices b with
  | [v0, v1, v2, v3, v4, v5] =>
    [(v0, v1), (v1, v2), (v2, v3), (v3, v4), (v4, v5), (v5, v0)]
  | _ => []

open Classical in
/-- One iteration of the closest-point loop: project the center onto the
edge segment (`t` clamped to `[0,1]`) and keep the strictly closer
candidate.  `none` plays the role of the initial `Infinity`. -/
noncomputable def edgeStep (cx cy : ℝ) (best : Option ((ℝ × ℝ) × ℝ))
    (e : (ℝ × ℝ) × (ℝ × ℝ)) : Option ((ℝ × ℝ) × ℝ) :=
  let p1 := e.1
  let p2 := e.2
  let edgeX := p2.1 - p1.1
  let edgeY := p2.2 - p1.2
  let lenSq := edgeX * edgeX + edgeY * edgeY
  let t := max 0 (min 1 (((cx - p1.1) * edgeX + (cy - p1.2) * edgeY) / lenSq))
  let projX := p1.1 + t * edgeX
  let projY := p1.2 + t * edgeY
  let dX := cx - projX
  let dY := cy - projY
  let dSq := dX * dX + dY * dY
  match best with
  | none => some ((projX, projY), dSq)
  | some bst => if dSq < bst.2 then some ((projX, projY), dSq) else some bst

/-- The closest boundary point and squared distance over the six edges. -/
noncomputable def closestOnHex (cx cy : ℝ) (b : Block) :
    Option ((ℝ × ℝ) × ℝ) :=
  (hexEdges b).foldl (edgeStep cx cy) none

theorem edgeStep_dist (cx cy : ℝ) (best : Option ((ℝ × ℝ) × ℝ))
    (e : (ℝ × ℝ) × (ℝ × ℝ))
    (hb : ∀ p d, best = some (p, d) →
      (cx - p.1) * (cx - p.1) + (cy - p.2) * (cy - p.2) = d) :
    ∀ p d, edgeStep cx cy best e = some (p, d) →
      (cx - p.1) * (cx - p.1) + (cy - p.2) * (cy - p.2) = d := by
  intro p d h
  simp only [edgeStep] at h
  cases best with
  | none =>
    simp only at h
    cases h
    rfl
  | some bst =>
    simp only at h
    split at h
    · cases h
      rfl
    · cases h
      exact hb p d rfl

/-- The squared distance returned by the loop really is the squared distance
from the query point to the returned closest point. -/
theorem closestOnHex_dist (cx cy : ℝ) (b : Block) (p : ℝ × ℝ) (d : ℝ)
    (h : closestOnHex cx cy b = some (p, d)) :
    (cx - p.1) * (cx - p.1) + (cy - p.2) * (cy - p.2) = d := by
  revert h
  unfold closestOnHex
  generalize hexEdges b = es
  induction es generalizing p d with
  | nil => intro h; simp [List.foldl] at h
  | cons e es ih =>
    have : ∀ (best : Option ((ℝ × ℝ) × ℝ)),
        (∀ q dq, best = some (q, dq) →
          (cx - q.1) * (cx - q.1) + (cy - q.2) * (cy - q.2) = dq) →
        ∀ pp dd, es.foldl (edgeStep cx cy) best = some (pp, dd) →
          (cx - pp.1) * (cx - pp.1) + (cy - pp.2) * (cy - pp.2) = dd := by
      clear ih
      induction es with
      | nil =>
        intro best hb pp dd h
        simp only [List.foldl] at h
        exact hb pp dd h
      | cons f fs ihf =>
        intro best hb pp dd h
        simp only [List.foldl] at h
        exact ihf (edgeStep cx cy best f) (edgeStep_dist cx cy best f hb) pp dd h
    intro h
    simp only [List.foldl] at h
    exact this (edgeStep cx cy none e)
      (edgeStep_dist cx cy none e (by intro q dq hq; cases hq)) p d h

/-- The squared distance returned by the loop is nonnegative. -/
theorem closestOnHex_nonneg (cx cy : ℝ) (b : Block) (p : ℝ × ℝ) (d : ℝ)
    (h : closestOnHex cx cy b = some (p, d)) : 0 ≤ d := by
  have := closestOnHex_dist cx cy b p d h
  nlinarith [sq_nonneg (cx - p.1), sq_nonneg (cy - p.2)]

open Classical in
/-- GameEngine.checkCollision (2598–2653).  The returned `Bool` is the
source's return value; the ball carries the positional resolution and (when
moving into the surface) the reflected velocity with random horizontal
jitter.  `rng k` models the `Math.random()` call in the jitter branch (the
only call site), and the returned counter advances exactly when the source
draws.  The `SoundManager.playBounce` side effect is dropped. -/
noncomputable def checkCollision (ball : Ball) (block : Block)
    (rng : ℕ → ℝ) (k : ℕ) : (Ball × Bool) × ℕ :=
  let distSq := (ball.x - block.x) * (ball.x - block.x)
    + (ball.y - block.y) * (ball.y - block.y)
  if (block.radius + ball.radius) * (block.radius + ball.radius) < distSq then
    ((ball, false), k)
  else
    match closestOnHex ball.x ball.y block with
    | none => ((ball, false), k)  -- unreachable: hexEdges always has 6 edges
    | some (cp, closestDistSq) =>
      if closestDistSq < ball.radius * ball.radius then
        let dist := Real.sqrt closestDistSq
        let n : ℝ × ℝ :=
          if dist = 0 then ((0 : ℝ), (-1 : ℝ))
          else ((ball.x - cp.1) / dist, (ball.y - cp.2) / dist)
        let overlap := ball.radius - dist
        let newX := ball.x + n.1 * overlap
        let newY := ball.y + n.2 * overlap
        let dot := ball.dx * n.1 + ball.dy * n.2
        if dot < 0 then
          -- reflect about the normal scaled by elasticity, plus jitter on dx
          let newDx := (ball.dx - 2 * dot * n.1) * ball.elasticity
            + (rng k - 0.5) * (block.radius * 0.05)
          let newDy := (ball.dy - 2 * dot * n.2) * ball.elasticity
          (({ ball with x := newX, y := newY, dx := newDx, dy := newDy },
            true), k + 1)
        else
          (({ ball with x := newX, y := newY }, true), k)
      else ((ball, false), k)

/-! ## Ball integration (`Ball.update`) and the per-step move phase
(`GameEngine.update` 917–940) -/

open Classical in
/-- Ball.update: gravity, motion, canvas-wall bounce. -/
noncomputable def ballUpdate (b : Ball) (canvasW : ℝ) (ts : ℝ) : Ball :=
  let dy := b.dy + b.gravity * ts
  let y := b.y + dy * ts
  let x := b.x + b.dx * ts
  if canvasW < x + b.radius ∨ x - b.radius < 0 then
    let dx := b.dx * (-b.elasticity)
    if canvasW < x + b.radius then
      { b with x := canvasW - b.radius, y := y, dx := dx, dy := dy }
    else if x - b.radius < 0 then
      { b with x := b.radius, y := y, dx := dx, dy := dy }
    else
      { b with x := x, y := y, dx := dx, dy := dy }
  else
    { b with x := x, y := y, dy := dy }

open Classical in
/-- Lines 917–940 of `update`, for one ball: integrate, clamp each velocity
component to `0.8 × (rowHeight / 1.5)`, then hole-wall collisions. -/
noncomputable def moveBall (st : Engine) (ts : ℝ) (b0 : Ball) : Ball :=
  let b1 := ballUpdate b0 st.canvasWidth ts
  let maxVelocity := st.rowHeight / 1.5 * 0.8
  let b2 := { b1 with dy :=
    if maxVelocity < b1.dy then maxVelocity
    else if b1.dy < -maxVelocity then -maxVelocity else b1.dy }
  let b3 := { b2 with dx :=
    if maxVelocity < b2.dx then maxVelocity
    else if b2.dx < -maxVelocity then -maxVelocity else b2.dx }
  let b4 :=
    if b3.x - b3.radius < st.holeLeft then
      { b3 with x := st.holeLeft + b3.radius, dx := b3.dx * (-b3.elasticity) }
    else b3
  if b4.x + b4.radius > st.holeRight then
    { b4 with x := st.holeRight - b4.radius, dx := b4.dx * (-b4.elasticity) }
  else b4


/-! ## World generation (`generateRows` 700–761, the catch-up loop in
`update` 948–953) -/

noncomputable def getGroundY (st : Engine) : ℝ := max 200 (st.canvasHeight * 0.3)

noncomputable def updateGeometry (st : Engine) : Engine :=
  let holeWidth := st.canvasWidth / 2
  let holeLeft := (st.canvasWidth - holeWidth) / 2
  { st with holeWidth := holeWidth, holeLeft := holeLeft,
            holeRight := holeLeft + holeWidth }

open Classical in
/-- One cell of `generateRows`: position from the offset hex layout, bounds
check, probabilistic type roll (one `Math.random()` draw, consumed only when
the cell lies inside the playable hole), depth-scaled health and value.
`color` is cosmetic and dropped. -/
noncomputable def genBlockAt (holeLeft holeRight dxw radius startY dy : ℝ)
    (upg : Upgrades) (r : ℤ) (c : ℕ) (rng : ℕ → ℝ) (k : ℕ) :
    Option Block × ℕ :=
  let xOffset : ℝ := if r % 2 = 0 then 0 else -dxw / 2
  let cx := (c : ℝ) * dxw + xOffset
  let finalX := cx + holeLeft
  let finalY := startY + (r : ℝ) * dy
  if finalX < holeLeft - dxw ∨ holeRight + dxw < finalX then (none, k)
  else
    let rolled :
        BlockType × ℕ :=
      if holeLeft ≤ finalX ∧ finalX ≤ holeRight then
        let bitC : ℝ := (upg.bitBoosters : ℝ) * 0.01
        let expC : ℝ := (upg.explosiveBlocks : ℝ) * 0.01
        let cashC : ℝ := (upg.cashBoosters : ℝ) * 0.01
        let roll := rng k
        (if roll < bitC then BlockType.bitBooster
         else if roll < bitC + expC then BlockType.explosive
         else if roll < bitC + expC + cashC then BlockType.cashBooster
         else BlockType.normal, k + 1)
      else (BlockType.normal, k)
    (some { x := finalX, y := finalY, radius := radius - 1,
            hp := 1 + (⌊(r : ℚ) * 0.2⌋ : ℤ), maxHp := 1 + (⌊(r : ℚ) * 0.2⌋ : ℤ),
            value := 10 + (⌊(r : ℚ) * 0.5⌋ : ℤ),
            row := r, col := (c : ℤ), type := rolled.1, typeRolled := true },
     rolled.2)

noncomputable def genColsGo (holeLeft holeRight dxw radius startY dy : ℝ)
    (upg : Upgrades) (r : ℤ) (rng : ℕ → ℝ) :
    List ℕ → ℕ → List Block × ℕ
  | [], k => ([], k)
  | c :: cs, k =>
    let r0 := genBlockAt holeLeft holeRight dxw radius startY dy upg r c rng k
    let r1 := genColsGo holeLeft holeRight dxw radius startY dy upg r rng cs r0.2
    (match r0.1 with
     | none => r1.1
     | some blk => blk :: r1.1, r1.2)

noncomputable def genRowsGo (holeLeft holeRight dxw radius startY dy : ℝ)
    (upg : Upgrades) (rng : ℕ → ℝ) :
    ℕ → ℤ → ℕ → List Block × ℕ
  | 0, _, k => ([], k)
  | n + 1, r, k =>
    let rc := genColsGo holeLeft holeRight dxw radius startY dy upg r rng
      [0, 1, 2, 3, 4, 5, 6, 7, 8, 9] k
    let rr := genRowsGo holeLeft holeRight dxw radius startY dy upg rng
      n (r + 1) rc.2
    (rc.1 ++ rr.1, rr.2)

/-- `generateRows(startRow, count)`: appends `count` rows of (up to) 10
cells and advances the frontier to `startRow + count`. -/
noncomputable def generateRows (st : Engine) (startRow : ℤ) (count : ℕ)
    (rng : ℕ → ℝ) (k : ℕ) : Engine × ℕ :=
  let dxw := st.holeWidth / 9
  let radius := dxw / Real.sqrt 3
  let dy := st.rowHeight
  let groundY := getGroundY st
  let startY := groundY + radius + 20
  let rr := genRowsGo st.holeLeft st.holeRight dxw radius startY dy
    st.upgrades rng count startRow k
  ({ st with blocks := st.blocks ++ rr.1,
             maxRowGenerated := startRow + count }, rr.2)

theorem nat_ceil_sub_one_lt {x : ℝ} (hx : 0 < x) :
    Nat.ceil (x - 1) < Nat.ceil x := by
  have h1 : 0 < Nat.ceil x := Nat.ceil_pos.mpr hx
  have h2 : Nat.ceil (x - 1) ≤ Nat.ceil x - 1 := by
    rw [Nat.ceil_le]
    have := Nat.le_ceil x
    push_cast [Nat.cast_sub h1]
    linarith
  omega

open Classical in
/-- The infinite-generation catch-up loop of `update` (948–953): keep
generating 50-row batches while the camera would expose unfinished terrain.
The source loop does not terminate when `rowHeight ≤ 0`; the guard
`0 < rowHeight` (together with the camera condition) protects the model,
and every reachable engine state has a positive row height. -/
noncomputable def genLoop (st : Engine) (rng : ℕ → ℝ) (k : ℕ) : Engine × ℕ :=
  if h : 0 < st.rowHeight ∧
      250 + (st.maxRowGenerated : ℝ) * st.rowHeight
        < st.offsetY + st.canvasHeight * 1.5 then
    let r := generateRows st st.maxRowGenerated 50 rng k
    genLoop r.1 rng r.2
  else (st, k)
termination_by
  Nat.ceil ((st.offsetY + st.canvasHeight * 1.5 - 250
    - (st.maxRowGenerated : ℝ) * st.rowHeight) / (50 * st.rowHeight))
decreasing_by
  have h1 : r.1.rowHeight = st.rowHeight := rfl
  have h2 : r.1.offsetY = st.offsetY := rfl
  have h3 : r.1.canvasHeight = st.canvasHeight := rfl
  have h4 : r.1.maxRowGenerated = st.maxRowGenerated + 50 := rfl
  rw [h1, h2, h3, h4]
  obtain ⟨hrh, hlt⟩ := h
  have hden : (0 : ℝ) < 50 * st.rowHeight := by linarith
  have hxx : (st.offsetY + st.canvasHeight * 1.5 - 250
      - ((st.maxRowGenerated : ℤ) + 50 : ℤ) * st.rowHeight) / (50 * st.rowHeight)
      = (st.offsetY + st.canvasHeight * 1.5 - 250
        - (st.maxRowGenerated : ℝ) * st.rowHeight) / (50 * st.rowHeight) - 1 := by
    push_cast
    field_simp
    ring
  rw [hxx]
  apply nat_ceil_sub_one_lt
  apply div_pos _ hden
  linarith

/-! ## The per-step special-type roll for existing cells
(`update` 876–908) -/

open Classical in
/-- The roll loop over existing blocks: un-rolled, inside the hole, close to
some ball — roll once (consuming one draw) and mark rolled; the type is left
unchanged (i.e. `normal`) when no special roll hits. -/
noncomputable def rollBlocksGo (balls : List Ball)
    (holeLeft holeRight rollDist : ℝ) (bitC expC cashC : ℚ) (rng : ℕ → ℝ) :
    List Block → ℕ → List Block × ℕ
  | [], k => ([], k)
  | b :: bs, k =>
    if b.typeRolled then
      let r := rollBlocksGo balls holeLeft holeRight rollDist bitC expC cashC
        rng bs k
      (b :: r.1, r.2)
    else if b.x < holeLeft ∨ holeRight < b.x then
      let r := rollBlocksGo balls holeLeft holeRight rollDist bitC expC cashC
        rng bs k
      (b :: r.1, r.2)
    else if ¬ ∃ ball ∈ balls, |b.y - ball.y| ≤ rollDist then
      let r := rollBlocksGo balls holeLeft holeRight rollDist bitC expC cashC
        rng bs k
      (b :: r.1, r.2)
    else
      let roll := rng k
      let newT :=
        if roll < (bitC : ℝ) then BlockType.bitBooster
        else if roll < ((bitC + expC : ℚ) : ℝ) then BlockType.explosive
        else if roll < ((bitC + expC + cashC : ℚ) : ℝ) then
          BlockType.cashBooster
        else b.type
      let b' := { b with typeRolled := true, type := newT }
      let r := rollBlocksGo balls holeLeft holeRight rollDist bitC expC cashC
        rng bs (k + 1)
      (b' :: r.1, r.2)

/-! ## Collision pass of `update` (955–992) -/

/-- `destroyAdjacentBlocks` as `update` calls it (with a fresh visited set
by default in the source). -/
noncomputable def destroyAdjacentBlocksRun (st : Engine) (row col : ℤ) :
    Engine :=
  (destroyAdjacentBlocks st row col []).1

open Classical in
/-- The inner `for (const ball of this.balls)` loop for the block at index
`i`: proximity gate, collision test (mutating the ball), damage on hit,
and on destruction splice + credit + effects + `break`.  When the scheduled
index no longer holds a block (possible only after a chain removed blocks
below it) the source dereferences `undefined` and throws; the model skips
the iteration instead, a path no claim depends on. -/
noncomputable def ballLoop (st : Engine) (i : ℕ) (rng : ℕ → ℝ) :
    ℕ → ℕ → Engine × ℕ
  | j, k =>
    if hj : j < st.balls.length then
      match st.blocks[i]? with
      | none => (st, k)
      | some b =>
        let ball := st.balls.get ⟨j, hj⟩
        if 200 < |b.y - ball.y| ∨ 200 < |b.x - ball.x| then
          ballLoop st i rng (j + 1) k
        else
          let cres := checkCollision ball b rng k
          let st1 := { st with balls := st.balls.set j cres.1.1 }
          if cres.1.2 then
            let damageMultiplier : ℚ := if 0 < st1.bitBoosterTimer then 2 else 1
            let effectiveDamage := ball.damage * damageMultiplier
            let td := takeDamage b effectiveDamage
            if td.2 then
              let newMoney := st1.money
                + ((⌈b.value * effMult st1 * cashMult st1⌉ : ℤ) : ℚ)
              let st2 := { st1 with blocks := st1.blocks.eraseIdx i,
                                    money := newMoney }
              let st3 :=
                if b.type = BlockType.bitBooster then
                  { st2 with bitBoosterTimer := BIT_BOOSTER_DURATION }
                else if b.type = BlockType.cashBooster then
                  { st2 with cashBoosterTimer := CASH_BOOSTER_DURATION }
                else if b.type = BlockType.explosive then
                  destroyAdjacentBlocksRun st2 b.row b.col
                else st2
              (st3, cres.2)
            else
              let st2 := { st1 with blocks := st1.blocks.set i td.1 }
              ballLoop st2 i rng (j + 1) cres.2
          else ballLoop st1 i rng (j + 1) cres.2
    else (st, k)
termination_by j _ => st.balls.length - j
decreasing_by
  all_goals first
    | omega
    | (simp only [List.length_set]; omega)

/-- The outer `for (let i = this.blocks.length − 1; i >= 0; i--)` loop;
the argument is `i + 1` so `n = blocks.length` processes indices
`length − 1, …, 0` in source order. -/
noncomputable def collisionOuter (rng : ℕ → ℝ) :
    ℕ → Engine → ℕ → Engine × ℕ
  | 0, st, k => (st, k)
  | i + 1, st, k =>
    let r := ballLoop st i rng 0 k
    collisionOuter rng i r.1 r.2

/-! ## The step function (`update` 852–993) -/

noncomputable def deepestBall (st : Engine) : Ball :=
  st.balls.foldl (fun deepest ball => if deepest.y < ball.y then ball
    else deepest) st.balls.headI

/-- The auto-save and booster-timer bookkeeping of `update` (858–874);
`saveGame` (storage I/O) is modelled as resetting the auto-save timer. -/
noncomputable def timersPhase (st1 : Engine) (dt : ℚ) : Engine :=
  let sta := { st1 with autoSaveTimer := st1.autoSaveTimer + dt }
  let stb := if AUTO_SAVE_INTERVAL ≤ sta.autoSaveTimer then
      { sta with autoSaveTimer := 0 } else sta
  let bitT := if stb.bitBoosterTimer - dt < 0 then 0
    else stb.bitBoosterTimer - dt
  let stc := if 0 < stb.bitBoosterTimer then
      { stb with bitBoosterTimer := bitT } else stb
  let cashT := if stc.cashBoosterTimer - dt < 0 then 0
    else stc.cashBoosterTimer - dt
  if 0 < stc.cashBoosterTimer then
    { stc with cashBoosterTimer := cashT } else stc

open Classical in
/-- The guarded roll of nearby un-rolled blocks (`update` 876–908). -/
noncomputable def rollPhase (std : Engine) (rng : ℕ → ℝ) (k : ℕ) :
    Engine × ℕ :=
  let bitC : ℚ := (std.upgrades.bitBoosters : ℚ) * 0.01
  let expC : ℚ := (std.upgrades.explosiveBlocks : ℚ) * 0.01
  let cashC : ℚ := (std.upgrades.cashBoosters : ℚ) * 0.01
  if 0 < bitC ∨ 0 < expC ∨ 0 < cashC then
    let r := rollBlocksGo std.balls std.holeLeft std.holeRight
      (std.canvasHeight * 2) bitC expC cashC rng std.blocks k
    ({ std with blocks := r.1 }, r.2)
  else (std, k)

open Classical in
/-- The simulation part of a step (`update` 915–992): integrate and clamp
every ball, follow the camera, catch up generation, run the collision
pass. -/
noncomputable def simulationPhase (st2 : Engine) (dt : ℚ) (rng : ℕ → ℝ)
    (k2 : ℕ) : Engine × ℕ :=
  let ts : ℝ := (dt : ℝ) / 16.667
  let st3 := { st2 with balls := st2.balls.map (moveBall st2 ts) }
  let deepest := deepestBall st3
  let targetY := deepest.y - st3.canvasHeight / 3
  let st4 := { st3 with offsetY :=
    st3.offsetY + (targetY - st3.offsetY) * 0.1 }
  let g := genLoop st4 rng k2
  collisionOuter rng g.1.blocks.length g.1 g.2

open Classical in
/-- GameEngine.update(dt).  `rng`/`k` thread the `Math.random()` stream
through the type rolls, generation and collision jitter. -/
noncomputable def update (st0 : Engine) (dt : ℚ) (rng : ℕ → ℝ) (k : ℕ) :
    Engine × ℕ :=
  let st1 := if 0 < st0.notificationTimer then
      { st0 with notificationTimer := st0.notificationTimer - dt } else st0
  let phase2 : Engine × ℕ :=
    if st1.gameState = GameState.PLAYING then rollPhase (timersPhase st1 dt) rng k
    else (st1, k)
  let st2 := phase2.1
  let k2 := phase2.2
  if st2.gameState = GameState.MENU ∨ st2.gameState = GameState.PAUSED ∨
      st2.isResizing then (st2, k2)
  else simulationPhase st2 dt rng k2

/-! ## Resize (`resize` 599–698) -/

open Classical in
/-- GameEngine.resize(width, height).  `rng k` models the single
`Math.random()` draw of the MENU branch (consumed only when a ball exists). -/
noncomputable def resize (st0 : Engine) (w h : ℝ) (rng : ℕ → ℝ) (k : ℕ) :
    Engine × ℕ :=
  let oldRowHeight := st0.rowHeight
  let oldRadius := oldRowHeight / 1.5
  let oldGroundY := max 200 (st0.canvasHeight * 0.3)
  let oldStartY := oldGroundY + oldRadius + 20
  let oldHoleLeft := st0.holeLeft
  let oldHoleWidth := st0.holeWidth
  let st1 := updateGeometry { st0 with canvasWidth := w, canvasHeight := h }
  let dxw := st1.holeWidth / 9
  let radius := dxw / Real.sqrt 3
  let st2 := { st1 with rowHeight := radius * 1.5 }
  let newGroundY := getGroundY st2
  let newStartY := newGroundY + radius + 20
  let newBalls := st2.balls.map fun b => { b with radius := radius * 0.3 }
  let st3 := { st2 with balls := newBalls }
  let phase : Engine × ℕ :=
    if st3.gameState = GameState.MENU then
      match st3.balls with
      | [] => ({ st3 with offsetY := newGroundY - st3.canvasHeight * 0.75 }, k)
      | b0 :: rest =>
        let hoverDist := min (st3.canvasHeight * 0.3) 250
        let b0' := { b0 with x := st3.canvasWidth / 2,
                             y := newGroundY - hoverDist,
                             dx := (rng k - 0.5) * 4, dy := 0 }
        ({ st3 with balls := b0' :: rest,
                    offsetY := newGroundY - st3.canvasHeight * 0.75 }, k + 1)
    else if 1 < oldRowHeight then
      let remap := fun (b : Ball) =>
        let ballRowIndex := (b.y - oldStartY) / oldRowHeight
        let b1 := { b with y := newStartY + ballRowIndex * st2.rowHeight }
        let newBX := st2.holeLeft
          + (b1.x - oldHoleLeft) * (st2.holeWidth / oldHoleWidth)
        let b2 := if 0 < oldHoleWidth then { b1 with x := newBX } else b1
        if 0 < oldRadius then
          let currentSpeed := Real.sqrt (b2.dx * b2.dx + b2.dy * b2.dy)
          let normalizedSpeed := currentSpeed / oldRadius
          let newSpeed0 := normalizedSpeed * radius
          let newSpeed := if radius * 1.0 < newSpeed0 then radius * 1.0
            else newSpeed0
          if 0.001 < currentSpeed then
            { b2 with dx := b2.dx / currentSpeed * newSpeed,
                      dy := b2.dy / currentSpeed * newSpeed }
          else b2
        else b2
      let st' := { st3 with balls := st3.balls.map remap }
      let deepest := deepestBall st'
      ({ st' with offsetY := deepest.y - st'.canvasHeight / 3 }, k)
    else (st3, k)
  let st4 := phase.1
  let gravityMult : ℝ := 1 + ((st4.upgrades.gravity : ℝ) - 1) * 0.1
  let gravBalls := st4.balls.map fun b =>
    { b with gravity := radius * 0.02 * gravityMult }
  let st5 := { st4 with balls := gravBalls }
  let newBlocks := st5.blocks.map fun blk =>
    let xOffset : ℝ := if blk.row % 2 = 0 then 0 else -dxw / 2
    let cx := (blk.col : ℝ) * dxw + xOffset
    { blk with radius := radius - 1, x := cx + st5.holeLeft,
               y := newStartY + (blk.row : ℝ) * st5.rowHeight }
  let st6 := { st5 with blocks := newBlocks }
  (st6, phase.2)

/-! ## Offline progress (`simulateOfflineProgress` 439–504) -/

def MAX_OFFLINE_TIME : ℚ := 24 * 60 * 60 * 1000

open Classical in
/-- GameEngine.simulateOfflineProgress(elapsedMs).  `saveGame` and the
console logging are dropped; the notification is its timer effect. -/
noncomputable def simulateOfflineProgress (st : Engine) (elapsedMs : ℚ) :
    Engine :=
  let cappedElapsed := min elapsedMs MAX_OFFLINE_TIME
  let elapsedSeconds := cappedElapsed / 1000
  let radius := st.rowHeight / 1.5
  let groundY := getGroundY st
  let startY := groundY + radius + 20
  let deepest := deepestBall st
  let currentRow : ℤ := max 0 ⌊(deepest.y - startY) / st.rowHeight * 2⌋
  let avgBlockHp : ℚ := 1 + ((⌊(currentRow : ℚ) * 0.2⌋ : ℤ) : ℚ)
  let avgBlockValue : ℚ := 10 + ((⌊(currentRow : ℚ) * 0.5⌋ : ℤ) : ℚ)
  let hitsPerSecond : ℚ := 2
  let totalDamage : ℚ :=
    (st.balls.length : ℚ) * (st.balls.headI).damage * hitsPerSecond
  let blocksPerSecond := totalDamage / avgBlockHp
  let efficiencyMult : ℚ := 1 + ((st.upgrades.efficiency : ℚ) - 1) * 0.2
  let moneyPerSecond := blocksPerSecond * avgBlockValue * efficiencyMult
  let offlineEarnings : ℤ := ⌊moneyPerSecond * elapsedSeconds⌋
  let st1 := if 0 < offlineEarnings then
      { st with money := st.money + (offlineEarnings : ℚ),
                notificationTimer := 2000 }
    else st
  let st2 := if 0 < st1.bitBoosterTimer then
      { st1 with bitBoosterTimer := max 0 (st1.bitBoosterTimer - cappedElapsed) }
    else st1
  if 0 < st2.cashBoosterTimer then
    { st2 with cashBoosterTimer := max 0 (st2.cashBoosterTimer - cappedElapsed) }
  else st2

/-! ## Prestige (`prestige` 520–586) -/

noncomputable def spawnGo (cw groundY hoverDist radius baseGravity : ℝ)
    (n : ℕ) (rng : ℕ → ℝ) : ℕ → ℕ → List Ball × ℕ
  | i, k =>
    if i < n then
      let spreadX := ((i : ℝ) - ((n : ℝ) - 1) / 2) * (radius * 2)
      let spreadY := rng k * 30 - 15
      let newBall : Ball :=
        { x := cw / 2 + spreadX, y := groundY - hoverDist + spreadY,
          radius := radius * 0.3, dx := (rng (k + 1) - 0.5) * 4, dy := 0,
          gravity := baseGravity, elasticity := 0.98, damage := 1 }
      let r := spawnGo cw groundY hoverDist radius baseGravity n rng
        (i + 1) (k + 2)
      (newBall :: r.1, r.2)
    else ([], k)
termination_by i _ => n - i
decreasing_by omega

/-- GameEngine.prestige(): reset money/upgrades/timers/world, spawn
`prestigeCount + 1` balls, recenter the camera, regenerate 40 rows, save
(no core effect) and show a notification. -/
noncomputable def prestige (st0 : Engine) (rng : ℕ → ℝ) (k : ℕ) :
    Engine × ℕ :=
  let st1 := { st0 with prestigeCount := st0.prestigeCount + 1,
                        money := 0, upgrades := ⟨1, 1, 1, 0, 0, 0⟩,
                        bitBoosterTimer := 0, cashBoosterTimer := 0,
                        blocks := [], maxRowGenerated := 0 }
  let groundY := getGroundY st1
  let hoverDist := min (st1.canvasHeight * 0.3) 250
  let radius := st1.rowHeight / 1.5
  let baseGravity := radius * 0.02
  let numberOfBalls := st1.prestigeCount + 1
  let sp := spawnGo st1.canvasWidth groundY hoverDist radius baseGravity
    numberOfBalls rng 0 k
  let st2 := { st1 with balls := sp.1,
                        offsetY := groundY - st1.canvasHeight * 0.75 }
  let g := generateRows st2 0 40 rng sp.2
  (showNotification g.1, g.2)

/-! ## Shop (`getShopPrices` 1902–1912, `buyUpgrade` 1914–1961,
`rerollExistingBlocks` 763–793) -/

inductive UpgradeType where
  | damage
  | gravity
  | efficiency
  | bitBoosters
  | explosiveBlocks
  | cashBoosters
deriving DecidableEq, Repr

def upgradeLevel (st : Engine) : UpgradeType → ℕ
  | UpgradeType.damage => st.upgrades.damage
  | UpgradeType.gravity => st.upgrades.gravity
  | UpgradeType.efficiency => st.upgrades.efficiency
  | UpgradeType.bitBoosters => st.upgrades.bitBoosters
  | UpgradeType.explosiveBlocks => st.upgrades.explosiveBlocks
  | UpgradeType.cashBoosters => st.upgrades.cashBoosters

def bumpUpgrade (u : Upgrades) : UpgradeType → Upgrades
  | UpgradeType.damage => { u with damage := u.damage + 1 }
  | UpgradeType.gravity => { u with gravity := u.gravity + 1 }
  | UpgradeType.efficiency => { u with efficiency := u.efficiency + 1 }
  | UpgradeType.bitBoosters => { u with bitBoosters := u.bitBoosters + 1 }
  | UpgradeType.explosiveBlocks =>
    { u with explosiveBlocks := u.explosiveBlocks + 1 }
  | UpgradeType.cashBoosters => { u with cashBoosters := u.cashBoosters + 1 }

/-- Whether a track is one of the three capped "block" tracks. -/
def isBlockUpgrade (t : UpgradeType) : Prop :=
  t = UpgradeType.bitBoosters ∨ t = UpgradeType.explosiveBlocks ∨
    t = UpgradeType.cashBoosters

instance (t : UpgradeType) : Decidable (isBlockUpgrade t) := by
  unfold isBlockUpgrade
  infer_instance

/-- getShopPrices: geometric cost curves, floored; `none` models the
`Infinity` reported for a capped track at max level. -/
def shopPrice (st : Engine) : UpgradeType → Option ℚ
  | UpgradeType.damage =>
    some ((⌊(100 : ℚ) * (1.5 : ℚ) ^ ((st.upgrades.damage : ℤ) - 1)⌋ : ℤ) : ℚ)
  | UpgradeType.gravity =>
    some ((⌊(50 : ℚ) * (1.4 : ℚ) ^ ((st.upgrades.gravity : ℤ) - 1)⌋ : ℤ) : ℚ)
  | UpgradeType.efficiency =>
    some ((⌊(200 : ℚ) * (1.6 : ℚ) ^ ((st.upgrades.efficiency : ℤ) - 1)⌋ : ℤ) : ℚ)
  | UpgradeType.bitBoosters =>
    if 10 ≤ st.upgrades.bitBoosters then none
    else some ((⌊(150 : ℚ) * (1.5 : ℚ) ^ st.upgrades.bitBoosters⌋ : ℤ) : ℚ)
  | UpgradeType.explosiveBlocks =>
    if 10 ≤ st.upgrades.explosiveBlocks then none
    else some ((⌊(150 : ℚ) * (1.5 : ℚ) ^ st.upgrades.explosiveBlocks⌋ : ℤ) : ℚ)
  | UpgradeType.cashBoosters =>
    if 10 ≤ st.upgrades.cashBoosters then none
    else some ((⌊(150 : ℚ) * (1.5 : ℚ) ^ st.upgrades.cashBoosters⌋ : ℤ) : ℚ)

open Classical in
/-- rerollExistingBlocks: one draw per in-hole block; rolls that miss every
special chance reset the type to `normal`. -/
noncomputable def rerollGo (holeLeft holeRight : ℝ) (bitC expC cashC : ℚ)
    (rng : ℕ → ℝ) : List Block → ℕ → List Block × ℕ
  | [], k => ([], k)
  | b :: bs, k =>
    if b.x < holeLeft ∨ holeRight < b.x then
      let r := rerollGo holeLeft holeRight bitC expC cashC rng bs k
      (b :: r.1, r.2)
    else
      let roll := rng k
      let newType :=
        if roll < (bitC : ℝ) then BlockType.bitBooster
        else if roll < ((bitC + expC : ℚ) : ℝ) then BlockType.explosive
        else if roll < ((bitC + expC + cashC : ℚ) : ℝ) then
          BlockType.cashBooster
        else BlockType.normal
      let r := rerollGo holeLeft holeRight bitC expC cashC rng bs (k + 1)
      ({ b with type := newType, typeRolled := true } :: r.1, r.2)

noncomputable def rerollExistingBlocks (st : Engine) (rng : ℕ → ℝ) (k : ℕ) :
    Engine × ℕ :=
  let bitC : ℚ := (st.upgrades.bitBoosters : ℚ) * 0.01
  let expC : ℚ := (st.upgrades.explosiveBlocks : ℚ) * 0.01
  let cashC : ℚ := (st.upgrades.cashBoosters : ℚ) * 0.01
  if bitC = 0 ∧ expC = 0 ∧ cashC = 0 then (st, k)
  else
    let r := rerollGo st.holeLeft st.holeRight bitC expC cashC rng
      st.blocks k
    ({ st with blocks := r.1 }, r.2)

open Classical in
/-- GameEngine.buyUpgrade(type).  Returns the updated engine plus the
source's boolean result; both failure paths show a notification rather than
raising.  The `none` (`Infinity`) cost branch is unreachable because the
max-level check returns first, but `money >= Infinity` would be false in
the source, so it fails the same way. -/
noncomputable def buyUpgrade (st : Engine) (t : UpgradeType) (rng : ℕ → ℝ)
    (k : ℕ) : (Engine × ℕ) × Bool :=
  let cost := shopPrice st t
  if isBlockUpgrade t ∧ 10 ≤ upgradeLevel st t then
    ((showNotification st, k), false)
  else
    match cost with
    | none => ((showNotification st, k), false)
    | some c =>
      if c ≤ st.money then
        let st1 := { st with money := st.money - c,
                             upgrades := bumpUpgrade st.upgrades t }
        let st2 :=
          if t = UpgradeType.damage then
            let dmgBalls := st1.balls.map fun b =>
              { b with damage := (st1.upgrades.damage : ℚ) }
            { st1 with balls := dmgBalls }
          else if t = UpgradeType.gravity then
            let radius := st1.rowHeight / 1.5
            let gravityMult : ℝ := 1 + ((st1.upgrades.gravity : ℝ) - 1) * 0.1
            let gBalls := st1.balls.map fun b =>
              { b with gravity := radius * 0.02 * gravityMult }
            { st1 with balls := gBalls }
          else st1
        let phase : Engine × ℕ :=
          if isBlockUpgrade t then rerollExistingBlocks st2 rng k
          else (st2, k)
        ((showNotification phase.1, phase.2), true)
      else ((showNotification st, k), false)


/-! ## Helper facts for the shop -/

theorem shopPrice_none {st : Engine} {t : UpgradeType}
    (h : shopPrice st t = none) :
    isBlockUpgrade t ∧ 10 ≤ upgradeLevel st t := by
  cases t <;> simp only [shopPrice] at h
  · cases h
  · cases h
  · cases h
  · refine ⟨Or.inl rfl, ?_⟩
    by_contra hb
    rw [if_neg (by simpa [upgradeLevel] using hb)] at h
    cases h
  · refine ⟨Or.inr (Or.inl rfl), ?_⟩
    by_contra hb
    rw [if_neg (by simpa [upgradeLevel] using hb)] at h
    cases h
  · refine ⟨Or.inr (Or.inr rfl), ?_⟩
    by_contra hb
    rw [if_neg (by simpa [upgradeLevel] using hb)] at h
    cases h

theorem rerollExistingBlocks_money (st : Engine) (rng : ℕ → ℝ) (k : ℕ) :
    (rerollExistingBlocks st rng k).1.money = st.money ∧
    (rerollExistingBlocks st rng k).1.upgrades = st.upgrades ∧
    (rerollExistingBlocks st rng k).1.notificationTimer
      = st.notificationTimer := by
  simp only [rerollExistingBlocks]
  split <;> exact ⟨rfl, rfl, rfl⟩

/-! ## C7 — buyUpgrade success/failure contract -/

/-- C7: `buyUpgrade` succeeds iff the track is not a capped track already at
level ≥ 10 and the money covers the (finite) computed cost; on success the
money drops by exactly the cost and only the chosen track's level rises by
one; on failure money and all upgrade levels are unchanged and a transient
notification is shown (`notificationTimer = 2000`), with no exception (the
function is total). -/
theorem c7_buyUpgrade_contract (st : Engine) (t : UpgradeType)
    (rng : ℕ → ℝ) (k : ℕ) :
    ((buyUpgrade st t rng k).2 = true ↔
      (¬ (isBlockUpgrade t ∧ 10 ≤ upgradeLevel st t) ∧
        ∃ c : ℚ, shopPrice st t = some c ∧ c ≤ st.money)) ∧
    ((buyUpgrade st t rng k).2 = true →
      ∃ c : ℚ, shopPrice st t = some c ∧
        (buyUpgrade st t rng k).1.1.money = st.money - c ∧
        upgradeLevel (buyUpgrade st t rng k).1.1 t = upgradeLevel st t + 1 ∧
        ∀ t' : UpgradeType, t' ≠ t →
          upgradeLevel (buyUpgrade st t rng k).1.1 t'
            = upgradeLevel st t') ∧
    ((buyUpgrade st t rng k).2 = false →
      (buyUpgrade st t rng k).1.1.money = st.money ∧
      (buyUpgrade st t rng k).1.1.upgrades = st.upgrades ∧
      (buyUpgrade st t rng k).1.1.notificationTimer = 2000) := by
  by_cases hcap : isBlockUpgrade t ∧ 10 ≤ upgradeLevel st t
  · -- capped track at max level: early refusal
    have hres : buyUpgrade st t rng k = ((showNotification st, k), false) := by
      unfold buyUpgrade
      rw [if_pos hcap]
    rw [hres]
    refine ⟨?_, ?_, ?_⟩
    · simp only [Bool.false_eq_true, false_iff]
      intro hcon
      exact hcon.1 hcap
    · intro hcon
      cases hcon
    · intro _
      exact ⟨rfl, rfl, rfl⟩
  · cases hsp : shopPrice st t with
    | none =>
      exact absurd (shopPrice_none hsp) hcap
    | some c =>
      by_cases hm : c ≤ st.money
      · -- success path
        have hres : buyUpgrade st t rng k = (let st1 :=
              { st with money := st.money - c,
                        upgrades := bumpUpgrade st.upgrades t }
            let st2 :=
              if t = UpgradeType.damage then
                let dmgBalls := st1.balls.map fun b =>
                  { b with damage := (st1.upgrades.damage : ℚ) }
                { st1 with balls := dmgBalls }
              else if t = UpgradeType.gravity then
                let radius := st1.rowHeight / 1.5
                let gravityMult : ℝ :=
                  1 + ((st1.upgrades.gravity : ℝ) - 1) * 0.1
                let gBalls := st1.balls.map fun b =>
                  { b with gravity := radius * 0.02 * gravityMult }
                { st1 with balls := gBalls }
              else st1
            let phase : Engine × ℕ :=
              if isBlockUpgrade t then rerollExistingBlocks st2 rng k
              else (st2, k)
            ((showNotification phase.1, phase.2), true)) := by
          unfold buyUpgrade
          rw [if_neg hcap, hsp]
          simp only
          rw [if_pos hm]
        refine ⟨?_, ?_, ?_⟩
        · rw [hres]
          simp only [true_iff]
          exact ⟨hcap, c, rfl, hm⟩
        · intro _
          have hupg : (buyUpgrade st t rng k).1.1.upgrades
              = bumpUpgrade st.upgrades t := by
            rw [hres]
            simp only [showNotification]
            split
            · refine ((rerollExistingBlocks_money _ rng k).2.1).trans ?_
              cases t <;> rfl
            · cases t <;> rfl
          have hmoney : (buyUpgrade st t rng k).1.1.money = st.money - c := by
            rw [hres]
            simp only [showNotification]
            split
            · refine ((rerollExistingBlocks_money _ rng k).1).trans ?_
              cases t <;> rfl
            · cases t <;> rfl
          refine ⟨c, rfl, hmoney, ?_, ?_⟩
          · cases t <;> simp [upgradeLevel, hupg, bumpUpgrade]
          · intro t' hne
            cases t <;> cases t' <;> simp_all [upgradeLevel, bumpUpgrade]
        · intro hfalse
          rw [hres] at hfalse
          cases hfalse
      · -- not enough money
        have hres : buyUpgrade st t rng k = ((showNotification st, k), false) := by
          unfold buyUpgrade
          rw [if_neg hcap, hsp]
          simp only
          rw [if_neg hm]
        rw [hres]
        refine ⟨?_, ?_, ?_⟩
        · simp only [Bool.false_eq_true, false_iff]
          intro hcon
          obtain ⟨-, c', hc', hm'⟩ := hcon
          injection hc' with hc2
          exact hm (by rw [hc2]; exact hm')
        · intro hcon
          cases hcon
        · intro _
          exact ⟨rfl, rfl, rfl⟩


/-- A baseline engine state used by concrete instances. -/
noncomputable def baseEngine : Engine :=
  { balls := [], blocks := [], canvasWidth := 0, canvasHeight := 0,
    money := 0, gameState := GameState.PLAYING, isResizing := false,
    upgrades := ⟨1, 1, 1, 0, 0, 0⟩, offsetY := 0, maxRowGenerated := 0,
    rowHeight := 0, holeWidth := 0, holeLeft := 0, holeRight := 0,
    notificationTimer := 0, autoSaveTimer := 0, bitBoosterTimer := 0,
    cashBoosterTimer := 0, prestigeCount := 0 }

/-- Witness for C7: at a concrete state with 1000 money and damage level 1,
the purchase succeeds and debits the cost 100. -/
theorem c7_buyUpgrade_contract_witness :
    (buyUpgrade { baseEngine with money := 1000 } UpgradeType.damage
      (fun _ => 0) 0).2 = true ∧
    (buyUpgrade { baseEngine with money := 1000 } UpgradeType.damage
      (fun _ => 0) 0).1.1.money = 900 := by
  have h := c7_buyUpgrade_contract { baseEngine with money := 1000 }
    UpgradeType.damage (fun _ => 0) 0
  have hsp : shopPrice { baseEngine with money := 1000 } UpgradeType.damage
      = some 100 := by
    show some ((⌊(100 : ℚ) * (1.5 : ℚ) ^ (((1 : ℕ) : ℤ) - 1)⌋ : ℤ) : ℚ)
      = some 100
    norm_num
  have htrue : (buyUpgrade { baseEngine with money := 1000 }
      UpgradeType.damage (fun _ => 0) 0).2 = true := by
    refine h.1.mpr ⟨?_, 100, hsp, ?_⟩
    · simp [isBlockUpgrade]
    · show (100 : ℚ) ≤ 1000
      norm_num
  obtain ⟨c, hc, hmoney, -, -⟩ := h.2.1 htrue
  rw [hsp] at hc
  injection hc with hc2
  rw [← hc2] at hmoney
  refine ⟨htrue, ?_⟩
  rw [hmoney]
  show (1000 : ℚ) - 100 = 900
  norm_num

/-! ## C8 — offline progress credit -/

/-- The throughput heuristic of `simulateOfflineProgress`: depth formulas at
the deepest ball's row, 2 hits per second per ball, efficiency multiplier. -/
noncomputable def moneyPerSecondOf (st : Engine) : ℚ :=
  let radius := st.rowHeight / 1.5
  let groundY := getGroundY st
  let startY := groundY + radius + 20
  let deepest := deepestBall st
  let currentRow : ℤ := max 0 ⌊(deepest.y - startY) / st.rowHeight * 2⌋
  let avgBlockHp : ℚ := 1 + ((⌊(currentRow : ℚ) * 0.2⌋ : ℤ) : ℚ)
  let avgBlockValue : ℚ := 10 + ((⌊(currentRow : ℚ) * 0.5⌋ : ℤ) : ℚ)
  (st.balls.length : ℚ) * (st.balls.headI).damage * 2 / avgBlockHp
    * avgBlockValue * (1 + ((st.upgrades.efficiency : ℚ) - 1) * 0.2)

/-- The integer amount `floor(moneyPerSecond × min(elapsed, 24 h) / 1000)`. -/
noncomputable def offlineEarningsOf (st : Engine) (elapsedMs : ℚ) : ℤ :=
  ⌊moneyPerSecondOf st * (min elapsedMs MAX_OFFLINE_TIME / 1000)⌋

theorem simulateOffline_money (st : Engine) (e : ℚ) :
    (simulateOfflineProgress st e).money
      = if 0 < offlineEarningsOf st e
        then st.money + ((offlineEarningsOf st e : ℤ) : ℚ) else st.money := by
  simp only [offlineEarningsOf, moneyPerSecondOf]
  by_cases hE : 0 < ⌊(st.balls.length : ℚ) * (st.balls.headI).damage * 2
      / (1 + ((⌊((max 0 ⌊((deepestBall st).y
            - (getGroundY st + st.rowHeight / 1.5 + 20)) / st.rowHeight * 2⌋
          : ℤ) : ℚ) * 0.2⌋ : ℤ) : ℚ))
      * (10 + ((⌊((max 0 ⌊((deepestBall st).y
            - (getGroundY st + st.rowHeight / 1.5 + 20)) / st.rowHeight * 2⌋
          : ℤ) : ℚ) * 0.5⌋ : ℤ) : ℚ))
      * (1 + ((st.upgrades.efficiency : ℚ) - 1) * 0.2)
      * (min e MAX_OFFLINE_TIME / 1000)⌋
  · rw [if_pos hE]
    simp only [simulateOfflineProgress]
    rw [if_pos hE]
    split
    · split <;> rfl
    · split <;> rfl
  · rw [if_neg hE]
    simp only [simulateOfflineProgress]
    rw [if_neg hE]
    split
    · split <;> rfl
    · split <;> rfl

theorem moneyPerSecondOf_nonneg (st : Engine)
    (hdmg : 0 ≤ (st.balls.headI).damage) : 0 ≤ moneyPerSecondOf st := by
  simp only [moneyPerSecondOf]
  have hrow : (0 : ℚ) ≤ ((max 0 ⌊((deepestBall st).y
      - (getGroundY st + st.rowHeight / 1.5 + 20)) / st.rowHeight * 2⌋
      : ℤ) : ℚ) := by
    have : (0 : ℤ) ≤ max 0 ⌊((deepestBall st).y
        - (getGroundY st + st.rowHeight / 1.5 + 20)) / st.rowHeight * 2⌋ :=
      le_max_left 0 _
    exact_mod_cast this
  have hhp : (0 : ℚ) ≤ ((⌊((max 0 ⌊((deepestBall st).y
      - (getGroundY st + st.rowHeight / 1.5 + 20)) / st.rowHeight * 2⌋
      : ℤ) : ℚ) * 0.2⌋ : ℤ) : ℚ) := by
    have : (0 : ℤ) ≤ ⌊((max 0 ⌊((deepestBall st).y
        - (getGroundY st + st.rowHeight / 1.5 + 20)) / st.rowHeight * 2⌋
        : ℤ) : ℚ) * 0.2⌋ := Int.floor_nonneg.mpr (by positivity)
    exact_mod_cast this
  have hval : (0 : ℚ) ≤ ((⌊((max 0 ⌊((deepestBall st).y
      - (getGroundY st + st.rowHeight / 1.5 + 20)) / st.rowHeight * 2⌋
      : ℤ) : ℚ) * 0.5⌋ : ℤ) : ℚ) := by
    have : (0 : ℤ) ≤ ⌊((max 0 ⌊((deepestBall st).y
        - (getGroundY st + st.rowHeight / 1.5 + 20)) / st.rowHeight * 2⌋
        : ℤ) : ℚ) * 0.5⌋ := Int.floor_nonneg.mpr (by positivity)
    exact_mod_cast this
  have heff : (0 : ℚ) ≤ 1 + ((st.upgrades.efficiency : ℚ) - 1) * 0.2 := by
    have : (0 : ℚ) ≤ (st.upgrades.efficiency : ℚ) := by positivity
    nlinarith
  have hlen : (0 : ℚ) ≤ (st.balls.length : ℚ) := by positivity
  have h1 : (0 : ℚ) ≤ (st.balls.length : ℚ) * (st.balls.headI).damage * 2 :=
    by nlinarith
  have h2 : (0 : ℚ) ≤ (st.balls.length : ℚ) * (st.balls.headI).damage * 2
      / (1 + ((⌊((max 0 ⌊((deepestBall st).y
          - (getGroundY st + st.rowHeight / 1.5 + 20)) / st.rowHeight * 2⌋
          : ℤ) : ℚ) * 0.2⌋ : ℤ) : ℚ)) := by
    apply div_nonneg h1
    linarith
  have h3 : (0 : ℚ) ≤ 10 + ((⌊((max 0 ⌊((deepestBall st).y
      - (getGroundY st + st.rowHeight / 1.5 + 20)) / st.rowHeight * 2⌋
      : ℤ) : ℚ) * 0.5⌋ : ℤ) : ℚ) := by linarith
  exact mul_nonneg (mul_nonneg h2 h3) heff

/-- C8: `simulateOfflineProgress` credits exactly
`floor(moneyPerSecond × min(elapsedMs, 24 h) / 1000)` with `moneyPerSecond`
derived from the depth formulas at the deepest ball's row, 2 hits per second
per ball, and the efficiency multiplier; `elapsed = 0` credits nothing and
any elapsed beyond 24 hours credits exactly the 24-hour amount. -/
theorem c8_offline_progress (st : Engine) (elapsedMs : ℚ)
    (hballs : st.balls ≠ []) (hdmg : 0 ≤ (st.balls.headI).damage)
    (helapsed : 0 ≤ elapsedMs) :
    (simulateOfflineProgress st elapsedMs).money
      = st.money + ((offlineEarningsOf st elapsedMs : ℤ) : ℚ) ∧
    (elapsedMs = 0 → (simulateOfflineProgress st elapsedMs).money = st.money) ∧
    (MAX_OFFLINE_TIME < elapsedMs →
      (simulateOfflineProgress st elapsedMs).money
        = (simulateOfflineProgress st MAX_OFFLINE_TIME).money) := by
  have hE : 0 ≤ offlineEarningsOf st elapsedMs := by
    apply Int.floor_nonneg.mpr
    apply mul_nonneg (moneyPerSecondOf_nonneg st hdmg)
    apply div_nonneg _ (by norm_num)
    have : (0 : ℚ) ≤ MAX_OFFLINE_TIME := by norm_num [MAX_OFFLINE_TIME]
    exact le_min helapsed this
  refine ⟨?_, ?_, ?_⟩
  · rw [simulateOffline_money]
    by_cases h : 0 < offlineEarningsOf st elapsedMs
    · rw [if_pos h]
    · rw [if_neg h]
      have : offlineEarningsOf st elapsedMs = 0 := le_antisymm (by omega) hE
      rw [this]
      norm_num
  · intro h0
    subst h0
    rw [simulateOffline_money]
    have : offlineEarningsOf st 0 = 0 := by
      unfold offlineEarningsOf
      rw [min_eq_left (by norm_num [MAX_OFFLINE_TIME])]
      norm_num
    rw [this]
    norm_num
  · intro hcap
    rw [simulateOffline_money, simulateOffline_money]
    have : offlineEarningsOf st elapsedMs = offlineEarningsOf st
        MAX_OFFLINE_TIME := by
      unfold offlineEarningsOf
      rw [min_eq_right (le_of_lt hcap), min_eq_right le_rfl]
    rw [this]

/-- Witness for C8 at a concrete state (one ball, damage 1, elapsed 2 s). -/
theorem c8_offline_progress_witness :
    ([(default : Ball)] ≠ ([] : List Ball)) ∧
    (0 : ℚ) ≤ 1 ∧ (0 : ℚ) ≤ 2000 ∧
    (simulateOfflineProgress
        { baseEngine with balls := [{ (default : Ball) with damage := 1 }],
                          rowHeight := 1 } 2000).money
      = ((offlineEarningsOf
          { baseEngine with balls := [{ (default : Ball) with damage := 1 }],
                            rowHeight := 1 } 2000 : ℤ) : ℚ) := by
  refine ⟨by simp, by norm_num, by norm_num, ?_⟩
  have h := c8_offline_progress
    { baseEngine with balls := [{ (default : Ball) with damage := 1 }],
                      rowHeight := 1 } 2000 (by simp) (by norm_num) (by norm_num)
  rw [h.1]
  show (0 : ℚ) + _ = _
  rw [zero_add]


/-! ## C9 — prestige reset -/

theorem spawnGo_length (cw groundY hoverDist radius baseGravity : ℝ)
    (n : ℕ) (rng : ℕ → ℝ) :
    ∀ i k, (spawnGo cw groundY hoverDist radius baseGravity n rng i k).1.length
      = n - i := by
  intro i k
  induction i, k using
    spawnGo.induct cw groundY hoverDist radius baseGravity n rng with
  | case1 i k hlt ih =>
    rw [spawnGo]
    rw [if_pos hlt]
    simp only [List.length_cons, ih]
    omega
  | case2 i k hge =>
    rw [spawnGo]
    rw [if_neg hge]
    simp only [List.length_nil]
    omega

/-- C9: `prestige` increments the prestige count by one, zeroes money and
both booster timers, resets every upgrade level to baseline
(damage/gravity/efficiency 1, capped tracks 0), replaces the ball list with
exactly `prestigeCount + 1` fresh balls (for the new count), and clears all
previously live cells — the result does not depend on the prior block
list. -/
theorem c9_prestige_reset (st : Engine) (rng : ℕ → ℝ) (k : ℕ) :
    (prestige st rng k).1.prestigeCount = st.prestigeCount + 1 ∧
    (prestige st rng k).1.money = 0 ∧
    (prestige st rng k).1.upgrades = ⟨1, 1, 1, 0, 0, 0⟩ ∧
    (prestige st rng k).1.bitBoosterTimer = 0 ∧
    (prestige st rng k).1.cashBoosterTimer = 0 ∧
    (prestige st rng k).1.balls.length
      = (prestige st rng k).1.prestigeCount + 1 ∧
    (∀ bs : List Block,
      (prestige { st with blocks := bs } rng k).1 = (prestige st rng k).1) := by
  refine ⟨rfl, rfl, rfl, rfl, rfl, ?_, fun bs => rfl⟩
  show (spawnGo st.canvasWidth (getGroundY { st with
      prestigeCount := st.prestigeCount + 1, money := 0,
      upgrades := ⟨1, 1, 1, 0, 0, 0⟩, bitBoosterTimer := 0,
      cashBoosterTimer := 0, blocks := [], maxRowGenerated := 0 })
      (min (st.canvasHeight * 0.3) 250) (st.rowHeight / 1.5)
      (st.rowHeight / 1.5 * 0.02) (st.prestigeCount + 1 + 1) rng 0 k).1.length
    = st.prestigeCount + 1 + 1
  rw [spawnGo_length]
  omega


/-! ## C10 — booster timers stay non-negative -/

theorem destroyChain_timers_nonneg (st : Engine) (em cm : ℚ)
    (ts pr : List (ℤ × ℤ)) (hb : 0 ≤ st.bitBoosterTimer)
    (hc : 0 ≤ st.cashBoosterTimer) :
    0 ≤ (destroyChain st em cm ts pr).1.1.bitBoosterTimer ∧
    0 ≤ (destroyChain st em cm ts pr).1.1.cashBoosterTimer := by
  obtain ⟨-, -, -, -, -, h6, h7⟩ := destroyChain_spec st em cm ts pr
  constructor
  · rcases h6 with h | h <;> rw [h]
    · exact hb
    · norm_num [BIT_BOOSTER_DURATION]
  · rcases h7 with h | h <;> rw [h]
    · exact hc
    · norm_num [CASH_BOOSTER_DURATION]

theorem destroyAdjacentBlocks_timers (st : Engine) (row col : ℤ)
    (pr : List (ℤ × ℤ)) (hb : 0 ≤ st.bitBoosterTimer)
    (hc : 0 ≤ st.cashBoosterTimer) :
    0 ≤ (destroyAdjacentBlocks st row col pr).1.bitBoosterTimer ∧
    0 ≤ (destroyAdjacentBlocks st row col pr).1.cashBoosterTimer := by
  unfold destroyAdjacentBlocks
  split
  · exact ⟨hb, hc⟩
  · exact destroyChain_timers_nonneg st _ _ _ _ hb hc

/-- The state produced by the destroyed-block branch of the collision
loop (`update` 968–988): ball written back, block `i` erased, money
credited, then the block-type effects. -/
noncomputable def ballLoopDestroyed (st : Engine) (i j : ℕ) (b : Block)
    (cres : (Ball × Bool) × ℕ) : Engine :=
  let st1 := { st with balls := st.balls.set j cres.1.1 }
  let st2 := { st1 with blocks := st1.blocks.eraseIdx i,
                        money := st1.money
                          + ((⌈b.value * effMult st1 * cashMult st1⌉ : ℤ) : ℚ) }
  if b.type = BlockType.bitBooster then
    { st2 with bitBoosterTimer := BIT_BOOSTER_DURATION }
  else if b.type = BlockType.cashBooster then
    { st2 with cashBoosterTimer := CASH_BOOSTER_DURATION }
  else if b.type = BlockType.explosive then
    destroyAdjacentBlocksRun st2 b.row b.col
  else st2

theorem ballLoop_stop (st : Engine) (i : ℕ) (rng : ℕ → ℝ) (j k : ℕ)
    (h : ¬ j < st.balls.length) : ballLoop st i rng j k = (st, k) := by
  rw [ballLoop, dif_neg h]

theorem ballLoop_noblock (st : Engine) (i : ℕ) (rng : ℕ → ℝ) (j k : ℕ)
    (hj : j < st.balls.length) (h : st.blocks[i]? = none) :
    ballLoop st i rng j k = (st, k) := by
  rw [ballLoop, dif_pos hj]
  simp only [h]

theorem ballLoop_far (st : Engine) (i : ℕ) (rng : ℕ → ℝ) (j k : ℕ)
    (hj : j < st.balls.length) (b : Block) (hsome : st.blocks[i]? = some b)
    (hfar : 200 < |b.y - (st.balls.get ⟨j, hj⟩).y| ∨
            200 < |b.x - (st.balls.get ⟨j, hj⟩).x|) :
    ballLoop st i rng j k = ballLoop st i rng (j + 1) k := by
  rw [ballLoop, dif_pos hj]
  simp only [hsome]
  rw [if_pos hfar]

theorem ballLoop_nohit (st : Engine) (i : ℕ) (rng : ℕ → ℝ) (j k : ℕ)
    (hj : j < st.balls.length) (b : Block) (hsome : st.blocks[i]? = some b)
    (cres : (Ball × Bool) × ℕ)
    (hcres : cres = checkCollision (st.balls.get ⟨j, hj⟩) b rng k)
    (hfar : ¬(200 < |b.y - (st.balls.get ⟨j, hj⟩).y| ∨
              200 < |b.x - (st.balls.get ⟨j, hj⟩).x|))
    (hnohit : ¬ cres.1.2 = true) :
    ballLoop st i rng j k =
      ballLoop { st with balls := st.balls.set j cres.1.1 } i rng (j + 1)
        cres.2 := by
  subst hcres
  rw [ballLoop, dif_pos hj]
  simp only [hsome]
  rw [if_neg hfar, if_neg hnohit]

theorem ballLoop_hit_notdes (st : Engine) (i : ℕ) (rng : ℕ → ℝ) (j k : ℕ)
    (hj : j < st.balls.length) (b : Block) (hsome : st.blocks[i]? = some b)
    (cres : (Ball × Bool) × ℕ)
    (hcres : cres = checkCollision (st.balls.get ⟨j, hj⟩) b rng k)
    (hfar : ¬(200 < |b.y - (st.balls.get ⟨j, hj⟩).y| ∨
              200 < |b.x - (st.balls.get ⟨j, hj⟩).x|))
    (hhit : cres.1.2 = true) (td : Block × Bool)
    (htd : td = takeDamage b ((st.balls.get ⟨j, hj⟩).damage *
      (if 0 < st.bitBoosterTimer then 2 else 1)))
    (hnd : ¬ td.2 = true) :
    ballLoop st i rng j k =
      ballLoop { st with balls := st.balls.set j cres.1.1,
                         blocks := st.blocks.set i td.1 } i rng (j + 1)
        cres.2 := by
  subst hcres
  subst htd
  rw [ballLoop, dif_pos hj]
  simp only [hsome]
  rw [if_neg hfar, if_pos hhit, if_neg hnd]

theorem ballLoop_hit_des (st : Engine) (i : ℕ) (rng : ℕ → ℝ) (j k : ℕ)
    (hj : j < st.balls.length) (b : Block) (hsome : st.blocks[i]? = some b)
    (cres : (Ball × Bool) × ℕ)
    (hcres : cres = checkCollision (st.balls.get ⟨j, hj⟩) b rng k)
    (hfar : ¬(200 < |b.y - (st.balls.get ⟨j, hj⟩).y| ∨
              200 < |b.x - (st.balls.get ⟨j, hj⟩).x|))
    (hhit : cres.1.2 = true)
    (hdes : (takeDamage b ((st.balls.get ⟨j, hj⟩).damage *
      (if 0 < st.bitBoosterTimer then 2 else 1))).2 = true) :
    ballLoop st i rng j k = (ballLoopDestroyed st i j b cres, cres.2) := by
  subst hcres
  rw [ballLoop, dif_pos hj]
  simp only [hsome]
  rw [if_neg hfar, if_pos hhit, if_pos hdes]
  rfl

theorem ballLoopDestroyed_timers (st : Engine) (i j : ℕ) (b : Block)
    (cres : (Ball × Bool) × ℕ) (hb : 0 ≤ st.bitBoosterTimer)
    (hc : 0 ≤ st.cashBoosterTimer) :
    0 ≤ (ballLoopDestroyed st i j b cres).bitBoosterTimer ∧
    0 ≤ (ballLoopDestroyed st i j b cres).cashBoosterTimer := by
  simp only [ballLoopDestroyed]
  split
  · exact ⟨by norm_num [BIT_BOOSTER_DURATION], hc⟩
  · split
    · exact ⟨hb, by norm_num [CASH_BOOSTER_DURATION]⟩
    · split
      · exact destroyAdjacentBlocks_timers _ b.row b.col [] hb hc
      · exact ⟨hb, hc⟩

theorem ballLoop_timers (st : Engine) (i : ℕ) (rng : ℕ → ℝ) (j k : ℕ) :
    0 ≤ st.bitBoosterTimer → 0 ≤ st.cashBoosterTimer →
    0 ≤ (ballLoop st i rng j k).1.bitBoosterTimer ∧
    0 ≤ (ballLoop st i rng j k).1.cashBoosterTimer := by
  induction st, i, rng, j, k using ballLoop.induct with
  | case1 st i rng j k hj hnone =>
    intro hb hc
    rw [ballLoop_noblock st i rng j k hj hnone]
    exact ⟨hb, hc⟩
  | case2 st i rng j k hj b hsome ball hfar ih =>
    intro hb hc
    rw [ballLoop_far st i rng j k hj b hsome hfar]
    exact ih hb hc
  | case3 st i rng j k hj b hsome ball hfar cres st1 hhit dm ed td hdes =>
    intro hb hc
    rw [ballLoop_hit_des st i rng j k hj b hsome cres rfl hfar hhit hdes]
    exact ballLoopDestroyed_timers st i j b cres hb hc
  | case4 st i rng j k hj b hsome ball hfar cres st1 hhit dm ed td hnd st2 ih =>
    intro hb hc
    rw [ballLoop_hit_notdes st i rng j k hj b hsome cres rfl hfar hhit td rfl hnd]
    exact ih hb hc
  | case5 st i rng j k hj b hsome ball hfar cres st1 hnohit ih =>
    intro hb hc
    rw [ballLoop_nohit st i rng j k hj b hsome cres rfl hfar hnohit]
    exact ih hb hc
  | case6 st i rng j k h =>
    intro hb hc
    rw [ballLoop_stop st i rng j k h]
    exact ⟨hb, hc⟩

theorem collisionOuter_timers (rng : ℕ → ℝ) (n : ℕ) :
    ∀ st k, 0 ≤ st.bitBoosterTimer → 0 ≤ st.cashBoosterTimer →
    0 ≤ (collisionOuter rng n st k).1.bitBoosterTimer ∧
    0 ≤ (collisionOuter rng n st k).1.cashBoosterTimer := by
  induction n with
  | zero => exact fun st k hb hc => ⟨hb, hc⟩
  | succ i ih =>
    intro st k hb hc
    have h := ballLoop_timers st i rng 0 k hb hc
    exact ih _ _ h.1 h.2

theorem genLoop_timers (st : Engine) (rng : ℕ → ℝ) (k : ℕ) :
    0 ≤ st.bitBoosterTimer → 0 ≤ st.cashBoosterTimer →
    0 ≤ (genLoop st rng k).1.bitBoosterTimer ∧
    0 ≤ (genLoop st rng k).1.cashBoosterTimer := by
  induction st, rng, k using genLoop.induct with
  | case1 st rng k h r ih =>
    intro hb hc
    rw [genLoop, dif_pos h]
    exact ih hb hc
  | case2 st rng k h =>
    intro hb hc
    rw [genLoop, dif_neg h]
    exact ⟨hb, hc⟩

theorem timersPhase_timers (st1 : Engine) (dt : ℚ)
    (hb : 0 ≤ st1.bitBoosterTimer) (hc : 0 ≤ st1.cashBoosterTimer) :
    0 ≤ (timersPhase st1 dt).bitBoosterTimer ∧
    0 ≤ (timersPhase st1 dt).cashBoosterTimer := by
  simp only [timersPhase]
  refine ⟨?_, ?_⟩ <;> (repeat' split) <;>
    simp_all only [not_lt] <;> first | exact hb | exact hc | linarith

theorem rollPhase_timers (std : Engine) (rng : ℕ → ℝ) (k : ℕ) :
    (rollPhase std rng k).1.bitBoosterTimer = std.bitBoosterTimer ∧
    (rollPhase std rng k).1.cashBoosterTimer = std.cashBoosterTimer := by
  simp only [rollPhase]
  split <;> exact ⟨rfl, rfl⟩

theorem timers_after_roll (st : Engine) (dt : ℚ) (rng : ℕ → ℝ) (k : ℕ)
    (hb : 0 ≤ st.bitBoosterTimer) (hc : 0 ≤ st.cashBoosterTimer) :
    0 ≤ (rollPhase (timersPhase st dt) rng k).1.bitBoosterTimer ∧
    0 ≤ (rollPhase (timersPhase st dt) rng k).1.cashBoosterTimer := by
  have h := timersPhase_timers st dt hb hc
  have e := rollPhase_timers (timersPhase st dt) rng k
  exact ⟨e.1 ▸ h.1, e.2 ▸ h.2⟩

theorem simulationPhase_timers (st2 : Engine) (dt : ℚ) (rng : ℕ → ℝ)
    (k2 : ℕ) (hb : 0 ≤ st2.bitBoosterTimer)
    (hc : 0 ≤ st2.cashBoosterTimer) :
    0 ≤ (simulationPhase st2 dt rng k2).1.bitBoosterTimer ∧
    0 ≤ (simulationPhase st2 dt rng k2).1.cashBoosterTimer := by
  simp only [simulationPhase]
  refine collisionOuter_timers rng _ _ _ ?_ ?_
  · refine (genLoop_timers _ rng k2 ?_ ?_).1
    · exact hb
    · exact hc
  · refine (genLoop_timers _ rng k2 ?_ ?_).2
    · exact hb
    · exact hc

set_option maxHeartbeats 1000000 in
theorem update_timers (st0 : Engine) (dt : ℚ) (rng : ℕ → ℝ) (k : ℕ)
    (hb : 0 ≤ st0.bitBoosterTimer) (hc : 0 ≤ st0.cashBoosterTimer) :
    0 ≤ (update st0 dt rng k).1.bitBoosterTimer ∧
    0 ≤ (update st0 dt rng k).1.cashBoosterTimer := by
  simp only [update]
  split <;> split <;> split <;>
    first
      | with_reducible exact ⟨hb, hc⟩
      | ((with_reducible refine timers_after_roll _ dt rng k ?_ ?_) <;>
          first | exact hb | exact hc)
      | ((with_reducible refine simulationPhase_timers _ dt rng _ ?_ ?_) <;>
          first
            | with_reducible exact hb
            | with_reducible exact hc
            | ((with_reducible refine (timers_after_roll _ dt rng k ?_ ?_).1) <;>
                first | exact hb | exact hc)
            | ((with_reducible refine (timers_after_roll _ dt rng k ?_ ?_).2) <;>
                first | exact hb | exact hc))

theorem simulateOffline_timers (st : Engine) (elapsedMs : ℚ)
    (hb : 0 ≤ st.bitBoosterTimer) (hc : 0 ≤ st.cashBoosterTimer) :
    0 ≤ (simulateOfflineProgress st elapsedMs).bitBoosterTimer ∧
    0 ≤ (simulateOfflineProgress st elapsedMs).cashBoosterTimer := by
  simp only [simulateOfflineProgress]
  split <;> split <;> split <;>
    refine ⟨?_, ?_⟩ <;>
      first | exact hb | exact hc | exact le_max_left 0 _

theorem rerollExistingBlocks_timers (st : Engine) (rng : ℕ → ℝ) (k : ℕ) :
    (rerollExistingBlocks st rng k).1.bitBoosterTimer = st.bitBoosterTimer ∧
    (rerollExistingBlocks st rng k).1.cashBoosterTimer
      = st.cashBoosterTimer := by
  simp only [rerollExistingBlocks]
  split <;> exact ⟨rfl, rfl⟩

theorem buyUpgrade_timers (st : Engine) (t : UpgradeType) (rng : ℕ → ℝ)
    (k : ℕ) :
    (buyUpgrade st t rng k).1.1.bitBoosterTimer = st.bitBoosterTimer ∧
    (buyUpgrade st t rng k).1.1.cashBoosterTimer = st.cashBoosterTimer := by
  simp only [buyUpgrade]
  repeat' split
  all_goals
    first
      | exact ⟨rfl, rfl⟩
      | exact ⟨(rerollExistingBlocks_timers _ _ _).1,
               (rerollExistingBlocks_timers _ _ _).2⟩

theorem prestige_timers (st0 : Engine) (rng : ℕ → ℝ) (k : ℕ) :
    (prestige st0 rng k).1.bitBoosterTimer = 0 ∧
    (prestige st0 rng k).1.cashBoosterTimer = 0 :=
  ⟨rfl, rfl⟩

/-- C10: starting from a state whose booster timers are non-negative, both
`bitBoosterTimer` and `cashBoosterTimer` are still non-negative after every
engine operation: a full `update` step (which clamps expiring timers to 0),
offline reconciliation (which decrements with a floor of 0), chain
destruction, an upgrade purchase, and a prestige. -/
theorem c10_timers_nonneg (st : Engine) (hb : 0 ≤ st.bitBoosterTimer)
    (hc : 0 ≤ st.cashBoosterTimer) :
    (∀ dt rng k, 0 ≤ (update st dt rng k).1.bitBoosterTimer ∧
      0 ≤ (update st dt rng k).1.cashBoosterTimer) ∧
    (∀ e, 0 ≤ (simulateOfflineProgress st e).bitBoosterTimer ∧
      0 ≤ (simulateOfflineProgress st e).cashBoosterTimer) ∧
    (∀ row col pr, 0 ≤ (destroyAdjacentBlocks st row col pr).1.bitBoosterTimer ∧
      0 ≤ (destroyAdjacentBlocks st row col pr).1.cashBoosterTimer) ∧
    (∀ t rng k, 0 ≤ (buyUpgrade st t rng k).1.1.bitBoosterTimer ∧
      0 ≤ (buyUpgrade st t rng k).1.1.cashBoosterTimer) ∧
    (∀ rng k, 0 ≤ (prestige st rng k).1.bitBoosterTimer ∧
      0 ≤ (prestige st rng k).1.cashBoosterTimer) := by
  refine ⟨fun dt rng k => update_timers st dt rng k hb hc,
    fun e => simulateOffline_timers st e hb hc,
    fun row col pr => destroyAdjacentBlocks_timers st row col pr hb hc,
    fun t rng k => ?_, fun rng k => ?_⟩
  · have h := buyUpgrade_timers st t rng k
    exact ⟨h.1 ▸ hb, h.2 ▸ hc⟩
  · have h := prestige_timers st rng k
    exact ⟨h.1 ▸ le_refl 0, h.2 ▸ le_refl 0⟩

/-- Witness for C10 at a concrete state with both timers 0. -/
theorem c10_timers_nonneg_witness :
    (0 : ℚ) ≤ baseEngine.bitBoosterTimer ∧
    (0 : ℚ) ≤ baseEngine.cashBoosterTimer ∧
    (0 ≤ (simulateOfflineProgress baseEngine 1000).bitBoosterTimer ∧
     0 ≤ (simulateOfflineProgress baseEngine 1000).cashBoosterTimer) :=
  ⟨le_refl 0, le_refl 0,
    (c10_timers_nonneg baseEngine (le_refl 0) (le_refl 0)).2.1 1000⟩

/-- C3: the explosive chain reaction always terminates (it is a total
function of the model), it records the centre cell in the visited list,
the visited list stays duplicate-free — each (row, col) is processed at
most once across the whole chain — and the surviving blocks form a sublist
of the input blocks, so each block is destroyed at most once and the number
of destroyed cells is finite (bounded by the block count). -/
theorem c3_chain_visited_once (st : Engine) (row col : ℤ)
    (pr : List (ℤ × ℤ)) (hpr : pr.Nodup) :
    (destroyAdjacentBlocks st row col pr).1.blocks.Sublist st.blocks ∧
    ((row, col) ∈ pr ∨ (row, col) ∈ (destroyAdjacentBlocks st row col pr).2) ∧
    (destroyAdjacentBlocks st row col pr).2.Nodup ∧
    pr ⊆ (destroyAdjacentBlocks st row col pr).2 := by
  simp only [destroyAdjacentBlocks]
  split
  next hmem =>
    exact ⟨List.Sublist.refl _, Or.inl hmem, hpr, fun x hx => hx⟩
  next hmem =>
    obtain ⟨h1, h2, h3, -⟩ := destroyChain_spec st (effMult st) (cashMult st)
      (neighborTargets row col) ((row, col) :: pr)
    refine ⟨h1, Or.inr (h2 (List.mem_cons_self _ _)), ?_,
      fun x hx => h2 (List.mem_cons_of_mem _ hx)⟩
    exact h3 (List.nodup_cons.mpr ⟨hmem, hpr⟩)

/-- Witness for C3 at a concrete state and an empty visited list. -/
theorem c3_chain_visited_once_witness :
    ([] : List (ℤ × ℤ)).Nodup ∧
    ((destroyAdjacentBlocks baseEngine 0 0 []).1.blocks.Sublist
        baseEngine.blocks ∧
      ((0, 0) ∈ ([] : List (ℤ × ℤ)) ∨
        ((0 : ℤ), (0 : ℤ)) ∈ (destroyAdjacentBlocks baseEngine 0 0 []).2) ∧
      (destroyAdjacentBlocks baseEngine 0 0 []).2.Nodup ∧
      ([] : List (ℤ × ℤ)) ⊆ (destroyAdjacentBlocks baseEngine 0 0 []).2) :=
  ⟨List.nodup_nil, c3_chain_visited_once baseEngine 0 0 [] List.nodup_nil⟩

noncomputable def c2CashBlock : Block :=
  { x := 0, y := 0, radius := 1, hp := 1, maxHp := 1, value := 10,
    row := -1, col := 0, type := BlockType.cashBooster, typeRolled := true }

noncomputable def c2NormalBlock : Block :=
  { x := 0, y := 0, radius := 1, hp := 1, maxHp := 1, value := 10,
    row := 1, col := 1, type := BlockType.normal, typeRolled := true }

noncomputable def c2State : Engine :=
  { baseEngine with blocks := [c2CashBlock, c2NormalBlock] }

/-- C2 counterexample: at a state with the cash-booster timer at 0, an
explosive chain at (0, 0) destroys a cash-booster cell first (which sets
the timer to its full duration) and then a normal cell of value 10.  The
claim says the later destruction must be credited
`ceil(10 * 1 * 2) = 20` because the cash-booster timer is positive by
then — total 30 — but the code samples `cashMultiplier` once at the start
of `destroyAdjacentBlocks`, so both cells are credited at multiplier 1 and
the total is 20. -/
theorem c2_per_destruction_multiplier_counterexample :
    (destroyAdjacentBlocks c2State 0 0 []).1.money = 20 ∧
    (destroyAdjacentBlocks c2State 0 0 []).1.cashBoosterTimer
      = CASH_BOOSTER_DURATION ∧
    (destroyAdjacentBlocks c2State 0 0 []).1.blocks = [] ∧
    chainCredit (effMult c2State) 1 c2CashBlock
      + chainCredit (effMult c2State) 2 c2NormalBlock = 30 ∧
    (destroyAdjacentBlocks c2State 0 0 []).1.money
      ≠ c2State.money + (chainCredit (effMult c2State) 1 c2CashBlock
        + chainCredit (effMult c2State) 2 c2NormalBlock) := by
  have h1 : (destroyAdjacentBlocks c2State 0 0 []).1.money = 20 := by
    simp [destroyAdjacentBlocks, destroyChain, removeAt, afterDestroy,
      neighborTargets, evenRowOffsets, c2State, c2CashBlock, c2NormalBlock,
      baseEngine, effMult, cashMult, CASH_BOOSTER_DURATION,
      BIT_BOOSTER_DURATION]
    norm_num
  have h2 : (destroyAdjacentBlocks c2State 0 0 []).1.cashBoosterTimer
      = CASH_BOOSTER_DURATION := by
    simp [destroyAdjacentBlocks, destroyChain, removeAt, afterDestroy,
      neighborTargets, evenRowOffsets, c2State, c2CashBlock, c2NormalBlock,
      baseEngine, effMult, cashMult]
  have h3 : (destroyAdjacentBlocks c2State 0 0 []).1.blocks = [] := by
    simp [destroyAdjacentBlocks, destroyChain, removeAt, afterDestroy,
      neighborTargets, evenRowOffsets, c2State, c2CashBlock, c2NormalBlock,
      baseEngine, effMult, cashMult]
  have h4 : chainCredit (effMult c2State) 1 c2CashBlock
      + chainCredit (effMult c2State) 2 c2NormalBlock = 30 := by
    simp [chainCredit, effMult, c2State, c2CashBlock, c2NormalBlock,
      baseEngine]
    norm_num
  refine ⟨h1, h2, h3, h4, ?_⟩
  rw [h1, h4]
  show (20 : ℚ) ≠ c2State.money + 30
  simp [c2State, baseEngine]

/-- C2 (amended): every destroyed block is credited exactly
`ceil(value * efficiencyMultiplier * cashMultiplier)` once, but with both
multipliers sampled when the destroying operation starts, not at the moment
of each destruction.  Clause 1: a block destroyed by direct damage in the
collision loop (non-explosive, so no chain follows) is credited with the
multipliers in force at that destruction.  Clause 2: a chain invocation
entered with multipliers `em`/`cm` (as sampled by `destroyAdjacentBlocks`)
credits every block it removes exactly `chainCredit em cm` — exact
accounting: final money = initial money + the credits of the removed
blocks — provided no destroyed cell is itself a cash booster (otherwise the
inner re-sampled invocations may use a refreshed multiplier). -/
theorem c2_destroy_credit_amended :
    (∀ st i j b cres, b.type ≠ BlockType.explosive →
      (ballLoopDestroyed st i j b cres).money
        = st.money + chainCredit (effMult st) (cashMult st) b) ∧
    (∀ st em cm ts pr, em = effMult st → cm = cashMult st →
      (∀ b ∈ st.blocks, b.type ≠ BlockType.cashBooster) →
      (destroyChain st em cm ts pr).1.1.money
        = st.money + (st.blocks.map (chainCredit em cm)).sum
          - ((destroyChain st em cm ts pr).1.1.blocks.map
              (chainCredit em cm)).sum) := by
  constructor
  · intro st i j b cres hne
    simp only [ballLoopDestroyed, hne, if_false]
    split
    · rfl
    · split
      · rfl
      · rfl
  · intro st em cm ts pr hem hcm hnc
    exact (destroyChain_money st em cm ts pr hem hcm hnc).1

/-- Witness for C2 (amended) at a concrete destruction: a normal block of
value 10 destroyed at multipliers 1, 1 credits exactly 10. -/
theorem c2_destroy_credit_amended_witness :
    c2NormalBlock.type ≠ BlockType.explosive ∧
    (ballLoopDestroyed baseEngine 0 0 c2NormalBlock
        ((⟨0, 0, 1, 0, 0, 0, 1, 1⟩, true), 0)).money
      = baseEngine.money
        + chainCredit (effMult baseEngine) (cashMult baseEngine)
            c2NormalBlock := by
  have hne : c2NormalBlock.type ≠ BlockType.explosive := by
    simp [c2NormalBlock]
  exact ⟨hne, c2_destroy_credit_amended.1 baseEngine 0 0 c2NormalBlock
    ((⟨0, 0, 1, 0, 0, 0, 1, 1⟩, true), 0) hne⟩

noncomputable def c4Ball : Ball :=
  { x := 400, y := 100, radius := 1, dx := 10, dy := 10, gravity := 0,
    elasticity := 1, damage := 1 }

noncomputable def c4State : Engine :=
  { baseEngine with balls := [c4Ball], canvasWidth := 1000,
                    canvasHeight := 300, rowHeight := 15 / 2,
                    holeWidth := 500, holeLeft := 250, holeRight := 750,
                    maxRowGenerated := 1000 }

theorem ballUpdate_elasticity (b : Ball) (cw ts : ℝ) :
    (ballUpdate b cw ts).elasticity = b.elasticity := by
  simp only [ballUpdate]
  repeat' split
  all_goals rfl

theorem clamp_abs_le {m x : ℝ} (hm : 0 ≤ m) :
    |if m < x then m else if x < -m then -m else x| ≤ m := by
  split
  · rw [abs_of_nonneg hm]
  · split
    · rw [abs_neg, abs_of_nonneg hm]
    · next h1 h2 => exact abs_le.mpr ⟨by linarith [not_lt.mp h2],
        by linarith [not_lt.mp h1]⟩

theorem abs_bounce {x m e : ℝ} (h : |x| ≤ m) (he0 : 0 ≤ e) (he1 : e ≤ 1) :
    |x * -e| ≤ m := by
  rw [abs_mul, abs_neg, abs_of_nonneg he0]
  calc |x| * e ≤ m * 1 :=
        mul_le_mul h he1 he0 (le_trans (abs_nonneg x) h)
    _ = m := mul_one m

theorem moveBall_velocity_clamp (st : Engine) (ts : ℝ) (b0 : Ball)
    (hrh : 0 ≤ st.rowHeight) (he0 : 0 ≤ b0.elasticity)
    (he1 : b0.elasticity ≤ 1) :
    |(moveBall st ts b0).dx| ≤ st.rowHeight / 1.5 * 0.8 ∧
    |(moveBall st ts b0).dy| ≤ st.rowHeight / 1.5 * 0.8 := by
  have hm : (0 : ℝ) ≤ st.rowHeight / 1.5 * 0.8 :=
    mul_nonneg (div_nonneg hrh (by norm_num)) (by norm_num)
  simp only [moveBall, ballUpdate_elasticity]
  generalize hgdx : (if st.rowHeight / 1.5 * 0.8
      < (ballUpdate b0 st.canvasWidth ts).dx then st.rowHeight / 1.5 * 0.8
    else if (ballUpdate b0 st.canvasWidth ts).dx
        < -(st.rowHeight / 1.5 * 0.8) then -(st.rowHeight / 1.5 * 0.8)
    else (ballUpdate b0 st.canvasWidth ts).dx) = vdx
  generalize hgdy : (if st.rowHeight / 1.5 * 0.8
      < (ballUpdate b0 st.canvasWidth ts).dy then st.rowHeight / 1.5 * 0.8
    else if (ballUpdate b0 st.canvasWidth ts).dy
        < -(st.rowHeight / 1.5 * 0.8) then -(st.rowHeight / 1.5 * 0.8)
    else (ballUpdate b0 st.canvasWidth ts).dy) = vdy
  have hvdx : |vdx| ≤ st.rowHeight / 1.5 * 0.8 := hgdx ▸ clamp_abs_le hm
  have hvdy : |vdy| ≤ st.rowHeight / 1.5 * 0.8 := hgdy ▸ clamp_abs_le hm
  constructor <;> split <;> split <;>
    first
      | exact hvdx
      | exact hvdy
      | exact abs_bounce hvdx he0 he1
      | exact abs_bounce (abs_bounce hvdx he0 he1) he0 he1

set_option maxRecDepth 8000 in
set_option maxHeartbeats 1000000 in
theorem c4_update_eval :
    (update c4State (16667 / 1000) (fun _ => 0) 0).1
      = { c4State with
            balls := [{ c4Ball with x := 410, y := 110, dx := 4, dy := 4 }],
            offsetY := 1, autoSaveTimer := 16667 / 1000 } := by
  norm_num [update, timersPhase, rollPhase, simulationPhase, moveBall,
    ballUpdate, deepestBall, c4State, c4Ball,
    baseEngine, AUTO_SAVE_INTERVAL]
  rw [if_neg (by decide : ¬(GameState.PLAYING = GameState.MENU ∨
    GameState.PLAYING = GameState.PAUSED))]
  rw [genLoop, dif_neg (by norm_num)]
  norm_num [collisionOuter]

/-- C4 counterexample: a PLAYING, non-resizing state with row height 7.5
(cell radius 5, claimed speed bound 0.8 x 5 = 4) and one ball moving with
velocity (10, 10).  After one `update` step both components are clamped to
4, so the ball's speed is sqrt(32) ~ 5.66, which exceeds the claimed bound
4: the code clamps each velocity component separately, not the magnitude. -/
theorem c4_speed_clamp_counterexample :
    c4State.gameState = GameState.PLAYING ∧
    c4State.isResizing = false ∧
    (update c4State (16667 / 1000) (fun _ => 0) 0).1.balls
      = [{ c4Ball with x := 410, y := 110, dx := 4, dy := 4 }] ∧
    (update c4State (16667 / 1000) (fun _ => 0) 0).1.rowHeight
      = c4State.rowHeight ∧
    0.8 * (c4State.rowHeight / 1.5) < Real.sqrt ((4 : ℝ) ^ 2 + 4 ^ 2) := by
  refine ⟨rfl, rfl, ?_, ?_, ?_⟩
  · rw [c4_update_eval]
  · rw [c4_update_eval]
  · have h4 : (0.8 * (c4State.rowHeight / 1.5) : ℝ) = 4 := by
      norm_num [c4State, baseEngine]
    rw [h4]
    have h32 : ((4 : ℝ) ^ 2 + 4 ^ 2) = 32 := by norm_num
    rw [h32]
    rw [show (4 : ℝ) = Real.sqrt 16 by
      rw [show (16 : ℝ) = 4 ^ 2 by norm_num]
      exact (Real.sqrt_sq (by norm_num)).symm]
    exact Real.sqrt_lt_sqrt (by norm_num) (by norm_num)

/-- C4 (amended): the per-step stability clamp of `update` (lines 917-940)
bounds each velocity component separately: after the move phase of a step,
`|dx|` and `|dy|` are each at most `0.8 * (rowHeight / 1.5)` (so the speed
is bounded by sqrt 2 times that, not by it); the hole-wall bounce only
attenuates `dx` further when elasticity is at most 1. -/
theorem c4_velocity_clamp_amended (st : Engine) (ts : ℝ) (b0 : Ball)
    (hrh : 0 ≤ st.rowHeight) (he0 : 0 ≤ b0.elasticity)
    (he1 : b0.elasticity ≤ 1) :
    |(moveBall st ts b0).dx| ≤ st.rowHeight / 1.5 * 0.8 ∧
    |(moveBall st ts b0).dy| ≤ st.rowHeight / 1.5 * 0.8 :=
  moveBall_velocity_clamp st ts b0 hrh he0 he1

/-- Witness for C4 (amended) at the concrete counterexample state. -/
theorem c4_velocity_clamp_amended_witness :
    (0 : ℝ) ≤ c4State.rowHeight ∧ (0 : ℝ) ≤ c4Ball.elasticity ∧
    c4Ball.elasticity ≤ 1 ∧
    (|(moveBall c4State 1 c4Ball).dx| ≤ c4State.rowHeight / 1.5 * 0.8 ∧
     |(moveBall c4State 1 c4Ball).dy| ≤ c4State.rowHeight / 1.5 * 0.8) := by
  have h1 : (0 : ℝ) ≤ c4State.rowHeight := by norm_num [c4State, baseEngine]
  have h2 : (0 : ℝ) ≤ c4Ball.elasticity := by norm_num [c4Ball]
  have h3 : c4Ball.elasticity ≤ 1 := by norm_num [c4Ball]
  exact ⟨h1, h2, h3, c4_velocity_clamp_amended c4State 1 c4Ball h1 h2 h3⟩
noncomputable def c6Ball : Ball :=
  { x := 0, y := 0, radius := 1, dx := 1, dy := 0, gravity := 0,
    elasticity := 1, damage := 1 }

noncomputable def c6State : Engine :=
  { baseEngine with balls := [c6Ball], canvasWidth := 100,
                    canvasHeight := 300, rowHeight := 1.5 }

theorem c6_resize_eval :
    ((resize c6State 54 300 (fun _ => 0) 0).1.balls.map
        fun b => (b.dx, b.dy)) = [(Real.sqrt 3, 0)] ∧
    (resize c6State 54 300 (fun _ => 0) 0).1.rowHeight
      = Real.sqrt 3 * 1.5 := by
  norm_num [resize, updateGeometry, getGroundY, deepestBall, c6State,
    c6Ball, baseEngine, Real.sqrt_one]
  rw [if_neg (by decide : ¬(GameState.PLAYING = GameState.MENU))]
  norm_num

/-- C6 counterexample: a PLAYING state with old row height 1.5 (old radius
1) and one ball with velocity (1, 0) is resized to a 54-wide canvas, making
the new cell radius sqrt 3.  The velocity is rescaled by the radius ratio to
(sqrt 3, 0) and the code clamps the speed at `radius * 1.0`, so the
resulting speed sqrt 3 exceeds the claimed bound
`0.8 * (newRowHeight / 1.5) = 0.8 * sqrt 3`: resize reclamps at 1.0 times
the cell radius, not at the 0.8 stability bound of the per-step clamp. -/
theorem c6_resize_clamp_counterexample :
    c6State.gameState ≠ GameState.MENU ∧
    1 < c6State.rowHeight ∧
    ((resize c6State 54 300 (fun _ => 0) 0).1.balls.map
        fun b => (b.dx, b.dy)) = [(Real.sqrt 3, 0)] ∧
    (resize c6State 54 300 (fun _ => 0) 0).1.rowHeight
      = Real.sqrt 3 * 1.5 ∧
    0.8 * ((resize c6State 54 300 (fun _ => 0) 0).1.rowHeight / 1.5)
      < Real.sqrt (Real.sqrt 3 * Real.sqrt 3 + 0 * 0) := by
  have hgs : c6State.gameState ≠ GameState.MENU := by
    show GameState.PLAYING ≠ GameState.MENU
    decide
  have hrh : (1 : ℝ) < c6State.rowHeight := by norm_num [c6State, baseEngine]
  refine ⟨hgs, hrh, c6_resize_eval.1, c6_resize_eval.2, ?_⟩
  rw [c6_resize_eval.2]
  have hs3 : Real.sqrt 3 * Real.sqrt 3 = 3 := Real.mul_self_sqrt (by norm_num)
  rw [hs3]
  have h0 : (3 : ℝ) + 0 * 0 = 3 := by norm_num
  rw [h0]
  have hpos : 0 < Real.sqrt 3 := Real.sqrt_pos.mpr (by norm_num)
  have hr : Real.sqrt 3 * 1.5 / 1.5 = Real.sqrt 3 := by ring
  rw [hr]
  linarith

/-- C6 (amended): when resize runs outside the MENU state with old row
height above 1, every resulting ball's velocity is a non-negative scalar
multiple of its old velocity (direction preserved or the ball stopped), and
its squared speed is bounded by the square of the full new cell radius
(`newRowHeight / 1.5`) — the clamp is at 1.0 times the new radius, not at
the 0.8 stability bound — or by `0.001 ^ 2` when the ball was already
slower than the `0.001` rescale threshold. -/
theorem c6_resize_rescale_amended (st0 : Engine) (w h : ℝ) (rng : ℕ → ℝ)
    (k : ℕ) (hms : st0.gameState ≠ GameState.MENU)
    (hrh : 1 < st0.rowHeight) (hw : 0 ≤ w) :
    ∀ b' ∈ (resize st0 w h rng k).1.balls, ∃ b ∈ st0.balls, ∃ c : ℝ,
      0 ≤ c ∧ b'.dx = c * b.dx ∧ b'.dy = c * b.dy ∧
      b'.dx * b'.dx + b'.dy * b'.dy
        ≤ max (((resize st0 w h rng k).1.rowHeight / 1.5)
            * ((resize st0 w h rng k).1.rowHeight / 1.5)) 0.000001 := by
  simp only [resize, updateGeometry]
  rw [if_neg hms, if_pos hrh]
  simp only [List.map_map, List.mem_map]
  intro b' hb'
  obtain ⟨b, hb, heq⟩ := hb'
  subst heq
  refine ⟨b, hb, ?_⟩
  simp only [Function.comp_apply, apply_ite Ball.dx, apply_ite Ball.dy,
    ite_self]
  have hOR : (0 : ℝ) < st0.rowHeight / 1.5 :=
    div_pos (by linarith) (by norm_num)
  rw [if_pos hOR, if_pos hOR]
  generalize hr : w / 2 / 9 / Real.sqrt 3 = r
  have hr0 : (0 : ℝ) ≤ r := by
    rw [← hr]
    exact div_nonneg (div_nonneg (div_nonneg hw (by norm_num)) (by norm_num))
      (Real.sqrt_nonneg 3)
  have hnn : (0 : ℝ) ≤ b.dx * b.dx + b.dy * b.dy :=
    add_nonneg (mul_self_nonneg _) (mul_self_nonneg _)
  by_cases hcs : (0.001 : ℝ) < Real.sqrt (b.dx * b.dx + b.dy * b.dy)
  · rw [if_pos hcs, if_pos hcs]
    have hcspos : (0 : ℝ) < Real.sqrt (b.dx * b.dx + b.dy * b.dy) :=
      lt_trans (by norm_num) hcs
    have hcs2 : Real.sqrt (b.dx * b.dx + b.dy * b.dy)
        * Real.sqrt (b.dx * b.dx + b.dy * b.dy)
        = b.dx * b.dx + b.dy * b.dy := Real.mul_self_sqrt hnn
    generalize hcseq : Real.sqrt (b.dx * b.dx + b.dy * b.dy) = cs
      at hcs hcspos hcs2 ⊢
    have hns : 0 ≤ (if r * 1.0 < cs / (st0.rowHeight / 1.5) * r then r * 1.0
        else cs / (st0.rowHeight / 1.5) * r) ∧
        (if r * 1.0 < cs / (st0.rowHeight / 1.5) * r then r * 1.0
        else cs / (st0.rowHeight / 1.5) * r) ≤ r := by
      split
      · constructor
        · nlinarith
        · nlinarith
      · next hno =>
        constructor
        · exact mul_nonneg (div_nonneg (le_of_lt hcspos) (le_of_lt hOR)) hr0
        · nlinarith [not_lt.mp hno]
    generalize hnseq : (if r * 1.0 < cs / (st0.rowHeight / 1.5) * r
        then r * 1.0 else cs / (st0.rowHeight / 1.5) * r) = ns at hns ⊢
    obtain ⟨hns0, hnsr⟩ := hns
    have hcs0 : cs ≠ 0 := ne_of_gt hcspos
    refine ⟨ns / cs, div_nonneg hns0 (le_of_lt hcspos), by ring, by ring, ?_⟩
    have hsq : b.dx / cs * ns * (b.dx / cs * ns)
        + b.dy / cs * ns * (b.dy / cs * ns) = ns * ns := by
      field_simp
      nlinarith [hcs2]
    rw [hsq]
    have hrr : r * 1.5 / 1.5 = r := by ring
    rw [hrr]
    exact le_trans (mul_self_le_mul_self hns0 hnsr) (le_max_left _ _)
  · rw [if_neg hcs, if_neg hcs]
    refine ⟨1, by norm_num, (one_mul _).symm, (one_mul _).symm, ?_⟩
    have hle : Real.sqrt (b.dx * b.dx + b.dy * b.dy) ≤ 0.001 := not_lt.mp hcs
    have h1 : b.dx * b.dx + b.dy * b.dy ≤ 0.000001 := by
      have := Real.mul_self_sqrt hnn
      nlinarith [Real.sqrt_nonneg (b.dx * b.dx + b.dy * b.dy)]
    exact le_trans h1 (le_max_right _ _)

/-- Witness for C6 (amended) at the concrete counterexample state. -/
theorem c6_resize_rescale_amended_witness :
    c6State.gameState ≠ GameState.MENU ∧ (1 : ℝ) < c6State.rowHeight ∧
    (0 : ℝ) ≤ 54 ∧
    ∀ b' ∈ (resize c6State 54 300 (fun _ => 0) 0).1.balls,
      ∃ b ∈ c6State.balls, ∃ c : ℝ,
      0 ≤ c ∧ b'.dx = c * b.dx ∧ b'.dy = c * b.dy ∧
      b'.dx * b'.dx + b'.dy * b'.dy
        ≤ max (((resize c6State 54 300 (fun _ => 0) 0).1.rowHeight / 1.5)
            * ((resize c6State 54 300 (fun _ => 0) 0).1.rowHeight / 1.5))
            0.000001 := by
  have hgs : c6State.gameState ≠ GameState.MENU := by
    show GameState.PLAYING ≠ GameState.MENU
    decide
  have hrh : (1 : ℝ) < c6State.rowHeight := by norm_num [c6State, baseEngine]
  exact ⟨hgs, hrh, by norm_num,
    c6_resize_rescale_amended c6State 54 300 (fun _ => 0) 0 hgs hrh
      (by norm_num)⟩

noncomputable def c1Block : Block :=
  { x := 0, y := 0, radius := 2, hp := 10, maxHp := 10, value := 10,
    row := 0, col := 0, type := BlockType.normal, typeRolled := true }

noncomputable def c1Ball : Ball :=
  { x := 0, y := 2, radius := 1, dx := 0, dy := 0, gravity := 0,
    elasticity := 1, damage := 1 }

theorem c1_vertices : getVertices c1Block
    = [(Real.sqrt 3, 1), (0, 2), (-Real.sqrt 3, 1), (-Real.sqrt 3, -1),
       (0, -2), (Real.sqrt 3, -1)] := by
  rw [getVertices_eq]
  norm_num [c1Block]
  ring

theorem c1_edges : hexEdges c1Block
    = [((Real.sqrt 3, 1), (0, 2)), ((0, 2), (-Real.sqrt 3, 1)),
       ((-Real.sqrt 3, 1), (-Real.sqrt 3, -1)),
       ((-Real.sqrt 3, -1), (0, -2)), ((0, -2), (Real.sqrt 3, -1)),
       ((Real.sqrt 3, -1), (Real.sqrt 3, 1))] := by
  unfold hexEdges
  rw [c1_vertices]

theorem c1_closest_top : closestOnHex 0 2 c1Block = some ((0, 2), 0) := by
  unfold closestOnHex
  rw [c1_edges]
  simp only [List.foldl_cons, List.foldl_nil]
  norm_num [edgeStep, Real.mul_self_sqrt (show (0:ℝ) ≤ 3 by norm_num),
    Real.sq_sqrt (show (0:ℝ) ≤ 3 by norm_num),
    Real.sqrt_nonneg]

theorem c1_closest_pushed : closestOnHex 0 1 c1Block
    = some ((Real.sqrt 3 / 4, 7 / 4), 3 / 4) := by
  unfold closestOnHex
  rw [c1_edges]
  simp only [List.foldl_cons, List.foldl_nil]
  norm_num [edgeStep, Real.mul_self_sqrt (show (0:ℝ) ≤ 3 by norm_num),
    Real.sq_sqrt (show (0:ℝ) ≤ 3 by norm_num),
    Real.sqrt_nonneg]
  ring_nf
  norm_num [Real.sq_sqrt (show (0:ℝ) ≤ 3 by norm_num)]

/-- C1 (amended): when the collision test confirms a hit at a
non-degenerate closest point (squared distance `d2` with `0 < d2 < r^2`),
the resolution moves the ball along the contact normal away from the
closest boundary point by exactly the penetration depth: the new center is
at distance exactly `ball.radius` from the closest point `P`, and the
displacement is a non-negative multiple of `center - P`.  (When the center
coincides with `P` — `d2 = 0` — the code instead pushes along the fixed
normal `(0, -1)` by the full radius, which can leave residual penetration;
see the counterexample.) -/
theorem c1_exact_push_amended (ball : Ball) (block : Block) (rng : ℕ → ℝ)
    (k : ℕ) (P : ℝ × ℝ) (d2 : ℝ)
    (hrej : ¬ (block.radius + ball.radius) * (block.radius + ball.radius)
      < (ball.x - block.x) * (ball.x - block.x)
        + (ball.y - block.y) * (ball.y - block.y))
    (hsome : closestOnHex ball.x ball.y block = some (P, d2))
    (hlt : d2 < ball.radius * ball.radius) (hne : d2 ≠ 0)
    (hr : 0 ≤ ball.radius) :
    (checkCollision ball block rng k).1.2 = true ∧
    ((checkCollision ball block rng k).1.1.x - P.1)
        * ((checkCollision ball block rng k).1.1.x - P.1)
      + ((checkCollision ball block rng k).1.1.y - P.2)
        * ((checkCollision ball block rng k).1.1.y - P.2)
      = ball.radius * ball.radius ∧
    ∃ c : ℝ, 0 ≤ c ∧
      (checkCollision ball block rng k).1.1.x - ball.x = c * (ball.x - P.1) ∧
      (checkCollision ball block rng k).1.1.y - ball.y = c * (ball.y - P.2) := by
  have hd2 : (ball.x - P.1) * (ball.x - P.1) + (ball.y - P.2) * (ball.y - P.2)
      = d2 := closestOnHex_dist ball.x ball.y block P d2 hsome
  have hd2nn : 0 ≤ d2 :=
    hd2 ▸ add_nonneg (mul_self_nonneg _) (mul_self_nonneg _)
  have hdistpos : 0 < Real.sqrt d2 :=
    Real.sqrt_pos.mpr (lt_of_le_of_ne hd2nn (Ne.symm hne))
  have hdist2 : Real.sqrt d2 * Real.sqrt d2 = d2 := Real.mul_self_sqrt hd2nn
  have hdistlt : Real.sqrt d2 < ball.radius := by
    have := Real.sqrt_lt_sqrt hd2nn hlt
    rwa [Real.sqrt_mul_self hr] at this
  have hsne : Real.sqrt d2 ≠ 0 := ne_of_gt hdistpos
  simp only [checkCollision]
  rw [if_neg hrej]
  rw [hsome]
  simp only
  rw [if_pos hlt, if_neg hsne]
  have hkey : ∀ nx ny : ℝ,
      nx = ball.x + (ball.x - P.1) / Real.sqrt d2
        * (ball.radius - Real.sqrt d2) →
      ny = ball.y + (ball.y - P.2) / Real.sqrt d2
        * (ball.radius - Real.sqrt d2) →
      (nx - P.1) * (nx - P.1) + (ny - P.2) * (ny - P.2)
          = ball.radius * ball.radius ∧
      ∃ c : ℝ, 0 ≤ c ∧ nx - ball.x = c * (ball.x - P.1) ∧
        ny - ball.y = c * (ball.y - P.2) := by
    intro nx ny hnx hny
    subst hnx
    subst hny
    constructor
    · have hx : ball.x + (ball.x - P.1) / Real.sqrt d2
          * (ball.radius - Real.sqrt d2) - P.1
          = (ball.x - P.1) * (ball.radius / Real.sqrt d2) := by
        field_simp
        ring
      have hy : ball.y + (ball.y - P.2) / Real.sqrt d2
          * (ball.radius - Real.sqrt d2) - P.2
          = (ball.y - P.2) * (ball.radius / Real.sqrt d2) := by
        field_simp
        ring
      rw [hx, hy]
      have : (ball.x - P.1) * (ball.radius / Real.sqrt d2)
            * ((ball.x - P.1) * (ball.radius / Real.sqrt d2))
          + (ball.y - P.2) * (ball.radius / Real.sqrt d2)
            * ((ball.y - P.2) * (ball.radius / Real.sqrt d2))
          = ((ball.x - P.1) * (ball.x - P.1)
            + (ball.y - P.2) * (ball.y - P.2))
            * (ball.radius * ball.radius) / (Real.sqrt d2 * Real.sqrt d2) := by
        field_simp
        ring
      rw [this, hd2, hdist2]
      field_simp
    · refine ⟨(ball.radius - Real.sqrt d2) / Real.sqrt d2, ?_, by ring, by ring⟩
      apply div_nonneg _ (le_of_lt hdistpos)
      linarith
  split
  · exact ⟨rfl, hkey _ _ rfl rfl⟩
  · exact ⟨rfl, hkey _ _ rfl rfl⟩

theorem c1_check_eval : checkCollision c1Ball c1Block (fun _ => 0) 0
    = (({ c1Ball with x := 0, y := 1 }, true), 0) := by
  simp only [checkCollision]
  norm_num [c1Ball, show c1Block.x = (0 : ℝ) from rfl,
    show c1Block.y = (0 : ℝ) from rfl,
    show c1Block.radius = (2 : ℝ) from rfl]
  rw [c1_closest_top]
  norm_num [Real.sqrt_zero, c1Ball]

/-- C1 counterexample: the ball (radius 1) centered exactly on the top
vertex (0, 2) of the hexagon at the origin (radius 2) is a confirmed hit
with closest-point distance 0, so the degenerate fixed normal (0, -1) is
used and the center is pushed down to (0, 1).  But the closest boundary
point to (0, 1) is at squared distance 3/4, i.e. distance ~0.866 < 0.9 =
bodyRadius - 1/10: the resolution leaves a residual penetration of depth
~0.134, refuting "post-resolution distance >= bodyRadius - epsilon". -/
theorem c1_residual_penetration_counterexample :
    (checkCollision c1Ball c1Block (fun _ => 0) 0).1.2 = true ∧
    (checkCollision c1Ball c1Block (fun _ => 0) 0).1.1.x = 0 ∧
    (checkCollision c1Ball c1Block (fun _ => 0) 0).1.1.y = 1 ∧
    (closestOnHex 0 1 c1Block).map Prod.snd = some (3 / 4) ∧
    (3 / 4 : ℝ) < (c1Ball.radius - 1 / 10) * (c1Ball.radius - 1 / 10) := by
  refine ⟨?_, ?_, ?_, ?_, ?_⟩
  · rw [c1_check_eval]
  · rw [c1_check_eval]
  · rw [c1_check_eval]
  · rw [c1_closest_pushed]
    rfl
  · norm_num [c1Ball]

/-- Witness for C1 (amended): the ball centered at (0, 1) against the
hexagon at the origin: a confirmed non-degenerate hit whose resolution
puts the center at distance exactly 1 from the closest boundary point. -/
theorem c1_exact_push_amended_witness :
    (¬ (c1Block.radius + c1Ball.radius) * (c1Block.radius + c1Ball.radius)
      < (({ c1Ball with y := 1 } : Ball).x - c1Block.x)
          * (({ c1Ball with y := 1 } : Ball).x - c1Block.x)
        + (({ c1Ball with y := 1 } : Ball).y - c1Block.y)
          * (({ c1Ball with y := 1 } : Ball).y - c1Block.y)) ∧
    closestOnHex ({ c1Ball with y := 1 } : Ball).x
        ({ c1Ball with y := 1 } : Ball).y c1Block
      = some ((Real.sqrt 3 / 4, 7 / 4), 3 / 4) ∧
    ((3 / 4 : ℝ) < ({ c1Ball with y := 1 } : Ball).radius
      * ({ c1Ball with y := 1 } : Ball).radius) ∧
    ((3 / 4 : ℝ) ≠ 0) ∧
    (0 : ℝ) ≤ ({ c1Ball with y := 1 } : Ball).radius ∧
    ((checkCollision { c1Ball with y := 1 } c1Block (fun _ => 0) 0).1.2
        = true ∧
      ((checkCollision { c1Ball with y := 1 } c1Block (fun _ => 0) 0).1.1.x
            - (Real.sqrt 3 / 4, (7 : ℝ) / 4).1)
          * ((checkCollision { c1Ball with y := 1 } c1Block
              (fun _ => 0) 0).1.1.x - (Real.sqrt 3 / 4, (7 : ℝ) / 4).1)
        + ((checkCollision { c1Ball with y := 1 } c1Block
              (fun _ => 0) 0).1.1.y - (Real.sqrt 3 / 4, (7 : ℝ) / 4).2)
          * ((checkCollision { c1Ball with y := 1 } c1Block
              (fun _ => 0) 0).1.1.y - (Real.sqrt 3 / 4, (7 : ℝ) / 4).2)
        = ({ c1Ball with y := 1 } : Ball).radius
          * ({ c1Ball with y := 1 } : Ball).radius ∧
      ∃ c : ℝ, 0 ≤ c ∧
        (checkCollision { c1Ball with y := 1 } c1Block
            (fun _ => 0) 0).1.1.x - ({ c1Ball with y := 1 } : Ball).x
          = c * (({ c1Ball with y := 1 } : Ball).x
            - (Real.sqrt 3 / 4, (7 : ℝ) / 4).1) ∧
        (checkCollision { c1Ball with y := 1 } c1Block
            (fun _ => 0) 0).1.1.y - ({ c1Ball with y := 1 } : Ball).y
          = c * (({ c1Ball with y := 1 } : Ball).y
            - (Real.sqrt 3 / 4, (7 : ℝ) / 4).2)) := by
  have h1 : ¬ (c1Block.radius + c1Ball.radius)
      * (c1Block.radius + c1Ball.radius)
      < (({ c1Ball with y := 1 } : Ball).x - c1Block.x)
          * (({ c1Ball with y := 1 } : Ball).x - c1Block.x)
        + (({ c1Ball with y := 1 } : Ball).y - c1Block.y)
          * (({ c1Ball with y := 1 } : Ball).y - c1Block.y) := by
    norm_num [c1Ball, c1Block]
  have h2 : closestOnHex ({ c1Ball with y := 1 } : Ball).x
      ({ c1Ball with y := 1 } : Ball).y c1Block
      = some ((Real.sqrt 3 / 4, 7 / 4), 3 / 4) := by
    show closestOnHex 0 1 c1Block = some ((Real.sqrt 3 / 4, 7 / 4), 3 / 4)
    exact c1_closest_pushed
  have h3 : (3 / 4 : ℝ) < ({ c1Ball with y := 1 } : Ball).radius
      * ({ c1Ball with y := 1 } : Ball).radius := by norm_num [c1Ball]
  have h4 : (3 / 4 : ℝ) ≠ 0 := by norm_num
  have h5 : (0 : ℝ) ≤ ({ c1Ball with y := 1 } : Ball).radius := by
    norm_num [c1Ball]
  exact ⟨h1, h2, h3, h4, h5,
    c1_exact_push_amended { c1Ball with y := 1 } c1Block (fun _ => 0) 0
      (Real.sqrt 3 / 4, 7 / 4) (3 / 4) h1 h2 h3 h4 h5⟩

noncomputable def c5Blk (hp : ℚ) : Block :=
  { x := 10, y := 0, radius := 2, hp := hp, maxHp := 10, value := 10,
    row := 0, col := 0, type := BlockType.normal, typeRolled := true }

noncomputable def c5Ball : Ball :=
  { x := 10, y := 2, radius := 1, dx := 0, dy := -(1 / 10),
    gravity := 1 / 10, elasticity := 49 / 50, damage := 1 }

noncomputable def c5State : Engine :=
  { baseEngine with balls := [c5Ball], blocks := [c5Blk 10],
                    canvasWidth := 2000, canvasHeight := 300,
                    rowHeight := 15, holeWidth := 50, holeLeft := 0,
                    holeRight := 50, offsetY := -200,
                    maxRowGenerated := 1000 }

theorem c5_edges (hp : ℚ) : hexEdges (c5Blk hp)
    = [((10 + Real.sqrt 3, 1), (10, 2)),
       ((10, 2), (10 - Real.sqrt 3, 1)),
       ((10 - Real.sqrt 3, 1), (10 - Real.sqrt 3, -1)),
       ((10 - Real.sqrt 3, -1), (10, -2)),
       ((10, -2), (10 + Real.sqrt 3, -1)),
       ((10 + Real.sqrt 3, -1), (10 + Real.sqrt 3, 1))] := by
  have hv : getVertices (c5Blk hp)
      = [(10 + Real.sqrt 3, 1), (10, 2), (10 - Real.sqrt 3, 1),
         (10 - Real.sqrt 3, -1), (10, -2), (10 + Real.sqrt 3, -1)] := by
    rw [getVertices_eq]
    norm_num [c5Blk]
    ring
  unfold hexEdges
  rw [hv]

theorem c5_closest_top (hp : ℚ) :
    closestOnHex 10 2 (c5Blk hp) = some ((10, 2), 0) := by
  unfold closestOnHex
  rw [c5_edges]
  simp only [List.foldl_cons, List.foldl_nil]
  norm_num [edgeStep, Real.mul_self_sqrt (show (0:ℝ) ≤ 3 by norm_num),
    Real.sq_sqrt (show (0:ℝ) ≤ 3 by norm_num), Real.sqrt_nonneg]

theorem c5_closest_mid (hp : ℚ) :
    closestOnHex 10 1 (c5Blk hp)
      = some ((10 + Real.sqrt 3 / 4, 7 / 4), 3 / 4) := by
  unfold closestOnHex
  rw [c5_edges]
  simp only [List.foldl_cons, List.foldl_nil]
  norm_num [edgeStep, Real.mul_self_sqrt (show (0:ℝ) ≤ 3 by norm_num),
    Real.sq_sqrt (show (0:ℝ) ≤ 3 by norm_num), Real.sqrt_nonneg]
  ring_nf
  norm_num [Real.sq_sqrt (show (0:ℝ) ≤ 3 by norm_num)]

theorem c5_closest_overlap (hp : ℚ) :
    closestOnHex 10 (11 / 10) (c5Blk hp)
      = some ((10 + 9 * Real.sqrt 3 / 40, 71 / 40), 243 / 400) := by
  unfold closestOnHex
  rw [c5_edges]
  simp only [List.foldl_cons, List.foldl_nil]
  norm_num [edgeStep, Real.mul_self_sqrt (show (0:ℝ) ≤ 3 by norm_num),
    Real.sq_sqrt (show (0:ℝ) ≤ 3 by norm_num), Real.sqrt_nonneg]
  ring_nf
  norm_num [Real.sq_sqrt (show (0:ℝ) ≤ 3 by norm_num)]

theorem c5_check1 :
    checkCollision { c5Ball with dy := 0 } (c5Blk 10) (fun _ => 1 / 2) 0
      = (({ c5Ball with y := 1, dy := 0 }, true), 0) := by
  simp only [checkCollision]
  norm_num [c5Ball, show (c5Blk 10).x = (10 : ℝ) from rfl,
    show (c5Blk 10).y = (0 : ℝ) from rfl,
    show (c5Blk 10).radius = (2 : ℝ) from rfl]
  rw [c5_closest_top]
  norm_num [Real.sqrt_zero, c5Ball]

theorem c5_check2_hit :
    (checkCollision { c5Ball with y := 11 / 10, dy := 1 / 10 } (c5Blk 9)
      (fun _ => 1 / 2) 0).1.2 = true := by
  simp only [checkCollision]
  norm_num [c5Ball, show (c5Blk 9).x = (10 : ℝ) from rfl,
    show (c5Blk 9).y = (0 : ℝ) from rfl,
    show (c5Blk 9).radius = (2 : ℝ) from rfl]
  rw [c5_closest_overlap]
  norm_num [apply_ite Prod.fst, apply_ite Prod.snd, ite_self]

set_option maxRecDepth 8000 in
set_option maxHeartbeats 1000000 in
theorem c5_update1 :
    (update c5State (16667 / 1000) (fun _ => 1 / 2) 0).1
      = { c5State with balls := [{ c5Ball with y := 1, dy := 0 }],
                       blocks := [c5Blk 9], offsetY := -(949 / 5),
                       autoSaveTimer := 16667 / 1000 } := by
  norm_num [update, timersPhase, rollPhase, simulationPhase, moveBall,
    ballUpdate, deepestBall, c5State, c5Ball, baseEngine, AUTO_SAVE_INTERVAL]
  rw [if_neg (by decide : ¬(GameState.PLAYING = GameState.MENU ∨
    GameState.PLAYING = GameState.PAUSED))]
  rw [genLoop, dif_neg (by norm_num)]
  norm_num [collisionOuter]
  rw [ballLoop_hit_notdes _ _ _ _ _ (by norm_num) _ (by rfl) _
    (by exact c5_check1.symm)
    (by norm_num [show (c5Blk 10).x = (10 : ℝ) from rfl,
      show (c5Blk 10).y = (0 : ℝ) from rfl])
    (by rfl) _ rfl
    (by norm_num [takeDamage, c5Blk])]
  rw [ballLoop_stop _ _ _ _ _ (by norm_num)]
  norm_num [takeDamage, c5Blk, c5Ball]

set_option maxRecDepth 8000 in
set_option maxHeartbeats 1000000 in
theorem c5_two_frames :
    ((update (update c5State (16667 / 1000) (fun _ => 1 / 2) 0).1
        (16667 / 1000) (fun _ => 1 / 2) 0).1.blocks.map Block.hp)
      = [8] := by
  rw [c5_update1]
  norm_num [update, timersPhase, rollPhase, simulationPhase, moveBall,
    ballUpdate, deepestBall, c5State, c5Ball, baseEngine, AUTO_SAVE_INTERVAL]
  rw [if_neg (by decide : ¬(GameState.PLAYING = GameState.MENU ∨
    GameState.PLAYING = GameState.PAUSED))]
  rw [genLoop, dif_neg (by norm_num)]
  norm_num [collisionOuter]
  rw [ballLoop_hit_notdes _ _ _ _ _ (by norm_num) _ (by rfl) _ rfl
    (by norm_num [show (c5Blk 9).x = (10 : ℝ) from rfl,
      show (c5Blk 9).y = (0 : ℝ) from rfl,
      show |(11 : ℝ) / 10| = 11 / 10 from abs_of_nonneg (by norm_num)])
    (by exact c5_check2_hit) _ rfl
    (by norm_num [takeDamage, c5Blk])]
  rw [ballLoop_stop _ _ _ _ _ (by norm_num [List.length_set])]
  norm_num [takeDamage, c5Blk]

/-- C5 counterexample: a ball resting in continuous contact with the same
block is damaged on every frame.  Frame 1: the ball (radius 1) centered on
the block's top vertex is detected, damaged (hp 10 -> 9) and pushed to
(10, 1) — still overlapping (squared boundary distance 3/4 < 1).  Frame 2:
gravity moves it to (10, 11/10), still the same uninterrupted contact
(squared distance 243/400 < 1), and the same block is damaged again
(hp 9 -> 8): there is no new-contact gating, damage recurs every frame of
overlap. -/
theorem c5_damage_every_frame_counterexample :
    ((update c5State (16667 / 1000) (fun _ => 1 / 2) 0).1.blocks.map
        Block.hp) = [9] ∧
    ((update (update c5State (16667 / 1000) (fun _ => 1 / 2) 0).1
        (16667 / 1000) (fun _ => 1 / 2) 0).1.blocks.map Block.hp) = [8] ∧
    (closestOnHex 10 1 (c5Blk 9)).map Prod.snd = some (3 / 4) ∧
    ((3 : ℝ) / 4 < 1 * 1) ∧
    (closestOnHex 10 (11 / 10) (c5Blk 9)).map Prod.snd = some (243 / 400) ∧
    ((243 : ℝ) / 400 < 1 * 1) := by
  refine ⟨?_, c5_two_frames, ?_, by norm_num, ?_, by norm_num⟩
  · rw [c5_update1]
    norm_num [c5Blk]
  · rw [c5_closest_mid]
    rfl
  · rw [c5_closest_overlap]
    rfl

/-- C5 (amended): the collision test is memoryless — its hit flag is true
exactly when the instantaneous overlap condition holds (inside the bounding
circle and squared distance to the closest hexagon-boundary point below the
squared body radius); there is no new-contact tracking, so a ball that
stays overlapped is hit by every test.  Each single test that hits applies
damage exactly once: `takeDamage` subtracts exactly the given amount. -/
theorem c5_damage_per_overlap_amended :
    (∀ (ball : Ball) (block : Block) (rng : ℕ → ℝ) (k : ℕ),
      (checkCollision ball block rng k).1.2 = true ↔
        (¬ (block.radius + ball.radius) * (block.radius + ball.radius)
            < (ball.x - block.x) * (ball.x - block.x)
              + (ball.y - block.y) * (ball.y - block.y)) ∧
        ∃ p d, closestOnHex ball.x ball.y block = some (p, d) ∧
          d < ball.radius * ball.radius) ∧
    (∀ (b : Block) (amount : ℚ),
      (takeDamage b amount).1.hp = b.hp - amount) := by
  refine ⟨fun ball block rng k => ?_, fun b amount => rfl⟩
  simp only [checkCollision]
  split
  next hrej =>
    constructor
    · intro habs
      exact absurd habs (by simp)
    · rintro ⟨hn, -⟩
      exact absurd hrej hn
  next hrej =>
    split
    next hnone =>
      constructor
      · intro habs
        exact absurd habs (by simp)
      · rintro ⟨-, p, d, heq, -⟩
        cases hnone.symm.trans heq
    next p d hsome =>
      split
      next hd =>
        constructor
        · intro _
          exact ⟨hrej, p, d, hsome, hd⟩
        · intro _
          split <;> split <;> rfl
      next hd =>
        constructor
        · intro habs
          exact absurd habs (by simp)
        · rintro ⟨-, p2, d2, heq, hd2⟩
          injection hsome.symm.trans heq with heq2
          injection heq2 with hp2 hd2eq
          subst hp2
          subst hd2eq
          exact absurd hd2 hd

end GravityMiner
